import Mathlib

/-!
Verification development for the `lscl` package (Logstash Configuration
Language codec): a shallow embedding of `src/lscl/parser.py`,
`src/lscl/renderer.py` and `src/lscl/filters.py`, together with theorems
settling the claims about the codec.

Modelling conventions:
* Python strings are Lean `String`s; lexing works on `List Char`.
* Source positions (the `Runk` tracker from `lscl/utils.py`, a file absent
  from `src/`) are omitted: no claim mentions line, column or offset, and
  errors are modelled by kind only.
* The mutable connective nodes of `_parse_lscl_condition` (which Python
  aliases and mutates in place, see `new = current;
  current.conditions.append(new)`) are modelled with an explicit arena of
  connective nodes referenced by index, so that the in-place `append` and the
  aliasing it creates are represented faithfully.
* Python exceptions become `Except` errors tagged by exception kind
  (`DecodeError` subtypes, `AttributeError`, generator exhaustion).
* Recursive-descent parsing uses explicit fuel; running out of fuel is a
  distinct error that never occurs on the concrete inputs evaluated here.
-/

namespace Lscl

/-- Data payload of attributes, mirroring `LsclData` from `lscl/lang.py`:
a Python value that is a `str`, `int`, `Decimal`, `list` or `dict`.
A `Decimal` is kept as its raw lexeme (no claim depends on decimal
normalisation), and a `dict` is an insertion-ordered association list with
unique keys, mirroring a Python `dict`. -/
inductive LsclData where
  | str (s : String)
  | int (n : Int)
  | dec (raw : String)
  | list (items : List LsclData)
  | dict (entries : List (String × LsclData))
  deriving Repr

/-- Right-values inside conditions, mirroring `LsclRValue` from
`lscl/lang.py` (`list[LsclData] | str | int | Decimal | LsclSelector |
LsclMethodCall`). A `PATTERN` token used as an rvalue contributes its
unescaped text as a plain `str`, as in the source. -/
inductive LsclRValue where
  | str (s : String)
  | int (n : Int)
  | dec (raw : String)
  | list (items : List LsclData)
  | selector (names : List String)
  | methodCall (name : String) (params : List LsclRValue)
  deriving Repr

/-- Kind of a boolean connective node (`LsclAnd` / `LsclOr` / `LsclXor` /
`LsclNand` from `lscl/lang.py`). -/
inductive LsclConnKind where
  | andK
  | orK
  | xorK
  | nandK
  deriving Repr, DecidableEq

/-- Condition, mirroring `LsclCondition` from `lscl/lang.py`. Connective
nodes (`LsclAnd`/`LsclOr`/`LsclXor`/`LsclNand`) are referenced through
`connRef` indices into an arena (`LsclArena`), because
`_parse_lscl_condition` mutates them in place through aliases; all other
variants are immutable in the source and are embedded structurally. -/
inductive LsclCond where
  | rv (v : LsclRValue)
  | connRef (id : Nat)
  | notC (c : LsclCond)
  | inOp (needle haystack : LsclRValue)
  | notInOp (needle haystack : LsclRValue)
  | eqOp (first second : LsclRValue)
  | neqOp (first second : LsclRValue)
  | lteOp (first second : LsclRValue)
  | gteOp (first second : LsclRValue)
  | ltOp (first second : LsclRValue)
  | gtOp (first second : LsclRValue)
  | matchOp (value : LsclRValue) (pat : String)
  | nmatchOp (value : LsclRValue) (pat : String)
  deriving Repr

/-- One connective node of the arena: its kind and its current list of
child conditions (the mutable `conditions` list of the Python object). -/
structure LsclConnNode where
  kind : LsclConnKind
  conditions : List LsclCond
  deriving Repr

/-- Arena of connective nodes; `LsclCond.connRef i` refers to position `i`.
Python object identity is the index, and in-place mutation is an update of
the entry. -/
abbrev LsclArena := List LsclConnNode

/-- Content element, mirroring `LsclBlock`, `LsclAttribute` and
`LsclConditions` from `lscl/lang.py`. Name-pattern validation performed by
pydantic is not modelled (no claim depends on it). -/
inductive LsclContentElem where
  | block (name : String) (content : List LsclContentElem)
  | attr (name : String) (content : LsclData)
  | conds (branches : List (LsclCond × List LsclContentElem))
      (dflt : Option (List LsclContentElem))
  deriving Repr

/-- Content, mirroring `LsclContent` from `lscl/lang.py`. -/
abbrev LsclContent := List LsclContentElem

/-! ## Tokens (mirroring the token classes of `lscl/parser.py`) -/

/-- Types of tokens without payload, mirroring `LsclSimpleTokenType`:
symbols, keywords and the `END` sentinel. -/
inductive LsclSimpleType where
  | tEnd | tAttr | tEq | tNeq | tLte | tLt | tGte | tGt
  | tMatch | tNmatch
  | tLbrace | tRbrace | tLbrk | tRbrk | tLparen | tRparen
  | tExcl | tComma
  | tIf | tElse | tIn | tNot | tAnd | tOr | tXor | tNand
  deriving Repr, DecidableEq

/-- Numeric token payload: `int(raw)` when the lexeme has no `.`,
`Decimal(raw)` otherwise (`parse_lscl_tokens`, case 7). -/
inductive NumValue where
  | intVal (n : Int)
  | decVal (raw : String)
  deriving Repr, DecidableEq

/-- Types of string-carrying tokens, mirroring the `type` values accepted
by `LsclStringToken`. -/
inductive StrType where
  | selectorElement | dquot | squot | patternTok | bareword | digitBareword
  deriving Repr, DecidableEq

/-- Token, mirroring `LsclToken = LsclSimpleToken | LsclNumberToken |
LsclStringToken` (positions omitted, see the module docstring). -/
inductive LsclToken where
  | simple (t : LsclSimpleType)
  | num (value : NumValue) (raw : String)
  | str (t : StrType) (value : String)
  deriving Repr, DecidableEq

/-! ## String unescaping (`_unescape_lscl_string`, `_unescape_lscl_pattern`)

Both functions apply `re.sub` with the pattern `\\(.)` to the escaped
content. As `.` does not match a newline, a backslash followed by a newline
(or a trailing backslash) is not an escape sequence: the regex engine
leaves the backslash in place and resumes scanning at the next character.
-/

/-- Replacement used for a matched escape sequence `\x` by
`_unescape_lscl_string`: `_LSCL_ESCAPE_CHARACTERS.get(x, "\\" + x)`. -/
def escapeCharReplacement (c : Char) : List Char :=
  if c = '"' then ['"']
  else if c = '\'' then ['\'']
  else if c = '\\' then ['\\']
  else if c = 'n' then ['\n']
  else if c = 'r' then ['\r']
  else if c = 't' then ['\t']
  else if c = '0' then [Char.ofNat 0]
  else ['\\', c]

/-- Embedding of `_unescape_lscl_string`: `re.sub(r"\\(.)", ...)` over the
escaped content, with the mapping `_LSCL_ESCAPE_CHARACTERS` and the
whole-match fallback for unknown escapes. A backslash followed by a newline
is not matched (the regex `.` excludes newlines), so the engine emits the
backslash and rescans from the newline; a trailing backslash is kept. -/
def unescapeLsclString : List Char → List Char
  | [] => []
  | c :: rest =>
      if c = '\\' then
        match rest with
        | [] => ['\\']
        | d :: rest' =>
            if d = '\n' then '\\' :: unescapeLsclString (d :: rest')
            else escapeCharReplacement d ++ unescapeLsclString rest'
      else c :: unescapeLsclString rest

/-- Embedding of `_unescape_lscl_pattern`: `re.sub(r"\\(.)", ...)` where a
matched `\/` becomes `/` and any other matched `\x` is kept whole, with the
same newline and trailing-backslash behaviour of the regex engine as in
`unescapeLsclString`. -/
def unescapeLsclPattern : List Char → List Char
  | [] => []
  | c :: rest =>
      if c = '\\' then
        match rest with
        | [] => ['\\']
        | d :: rest' =>
            if d = '\n' then '\\' :: unescapeLsclPattern (d :: rest')
            else if d = '/' then '/' :: unescapeLsclPattern rest'
            else '\\' :: d :: unescapeLsclPattern rest'
      else c :: unescapeLsclPattern rest

/-- Statement of the string-escape rule in the words of the claim: every
`\x` pair is decoded as a unit, to the mapped character when `x` is one of
the seven escape characters and to the literal two characters `\x`
otherwise; a trailing lone backslash is kept. This definition follows the
claim text and is compared against `unescapeLsclString`. -/
def unescapeStringSpec : List Char → List Char
  | [] => []
  | c :: rest =>
      if c = '\\' then
        match rest with
        | [] => ['\\']
        | d :: rest' => escapeCharReplacement d ++ unescapeStringSpec rest'
      else c :: unescapeStringSpec rest

/-- Statement of the pattern-escape rule in the words of the claim: only
`\/` is unescaped to `/`; every other `\x` sequence is preserved verbatim.
This definition follows the claim text and is compared against
`unescapeLsclPattern`. -/
def unescapePatternSpec : List Char → List Char
  | [] => []
  | c :: rest =>
      if c = '\\' then
        match rest with
        | [] => ['\\']
        | d :: rest' =>
            if d = '/' then '/' :: unescapePatternSpec rest'
            else '\\' :: d :: unescapePatternSpec rest'
      else c :: unescapePatternSpec rest

theorem unescapeLsclString_pair (d : Char) (rest' : List Char) :
    unescapeLsclString ('\\' :: d :: rest') =
      if d = '\n' then '\\' :: unescapeLsclString (d :: rest')
      else escapeCharReplacement d ++ unescapeLsclString rest' := rfl

theorem unescapeLsclString_cons_ne (c : Char) (rest : List Char)
    (hc : ¬c = '\\') :
    unescapeLsclString (c :: rest) = c :: unescapeLsclString rest := by
  match rest with
  | [] => show (if c = '\\' then _ else _) = _; rw [if_neg hc]
  | d :: rest' => show (if c = '\\' then _ else _) = _; rw [if_neg hc]

theorem unescapeStringSpec_pair (d : Char) (rest' : List Char) :
    unescapeStringSpec ('\\' :: d :: rest') =
      escapeCharReplacement d ++ unescapeStringSpec rest' := rfl

theorem unescapeStringSpec_cons_ne (c : Char) (rest : List Char)
    (hc : ¬c = '\\') :
    unescapeStringSpec (c :: rest) = c :: unescapeStringSpec rest := by
  match rest with
  | [] => show (if c = '\\' then _ else _) = _; rw [if_neg hc]
  | d :: rest' => show (if c = '\\' then _ else _) = _; rw [if_neg hc]

theorem unescapeLsclString_eq_spec :
    ∀ l : List Char, unescapeLsclString l = unescapeStringSpec l
  | [] => rfl
  | c :: rest => by
      by_cases hc : c = '\\'
      · subst hc
        match rest with
        | [] => rfl
        | d :: rest' =>
            by_cases hd : d = '\n'
            · subst hd
              have ih := unescapeLsclString_eq_spec rest'
              rw [unescapeLsclString_pair, if_pos rfl,
                unescapeLsclString_cons_ne _ _ (by decide),
                unescapeStringSpec_pair, ih]
              simp [escapeCharReplacement]
            · have ih := unescapeLsclString_eq_spec rest'
              rw [unescapeLsclString_pair, if_neg hd,
                unescapeStringSpec_pair, ih]
      · have ih := unescapeLsclString_eq_spec rest
        rw [unescapeLsclString_cons_ne _ _ hc,
          unescapeStringSpec_cons_ne _ _ hc, ih]
termination_by l => l.length
decreasing_by all_goals simp_wf <;> omega

theorem unescapeLsclPattern_pair (d : Char) (rest' : List Char) :
    unescapeLsclPattern ('\\' :: d :: rest') =
      if d = '\n' then '\\' :: unescapeLsclPattern (d :: rest')
      else if d = '/' then '/' :: unescapeLsclPattern rest'
      else '\\' :: d :: unescapeLsclPattern rest' := rfl

theorem unescapeLsclPattern_cons_ne (c : Char) (rest : List Char)
    (hc : ¬c = '\\') :
    unescapeLsclPattern (c :: rest) = c :: unescapeLsclPattern rest := by
  match rest with
  | [] => show (if c = '\\' then _ else _) = _; rw [if_neg hc]
  | d :: rest' => show (if c = '\\' then _ else _) = _; rw [if_neg hc]

theorem unescapePatternSpec_pair (d : Char) (rest' : List Char) :
    unescapePatternSpec ('\\' :: d :: rest') =
      if d = '/' then '/' :: unescapePatternSpec rest'
      else '\\' :: d :: unescapePatternSpec rest' := rfl

theorem unescapePatternSpec_cons_ne (c : Char) (rest : List Char)
    (hc : ¬c = '\\') :
    unescapePatternSpec (c :: rest) = c :: unescapePatternSpec rest := by
  match rest with
  | [] => show (if c = '\\' then _ else _) = _; rw [if_neg hc]
  | d :: rest' => show (if c = '\\' then _ else _) = _; rw [if_neg hc]

theorem unescapeLsclPattern_eq_spec :
    ∀ l : List Char, unescapeLsclPattern l = unescapePatternSpec l
  | [] => rfl
  | c :: rest => by
      by_cases hc : c = '\\'
      · subst hc
        match rest with
        | [] => rfl
        | d :: rest' =>
            by_cases hd : d = '\n'
            · subst hd
              have ih := unescapeLsclPattern_eq_spec rest'
              rw [unescapeLsclPattern_pair, if_pos rfl,
                unescapeLsclPattern_cons_ne _ _ (by decide),
                unescapePatternSpec_pair, if_neg (by decide), ih]
            · have ih := unescapeLsclPattern_eq_spec rest'
              rw [unescapeLsclPattern_pair, if_neg hd,
                unescapePatternSpec_pair, ih]
      · have ih := unescapeLsclPattern_eq_spec rest
        rw [unescapeLsclPattern_cons_ne _ _ hc,
          unescapePatternSpec_cons_ne _ _ hc, ih]
termination_by l => l.length
decreasing_by all_goals simp_wf <;> omega

/-- Claim C7: for every quoted string lexed, each escape sequence `\x` with
`x` in the seven-character escape set decodes to the mapped character and
any other `\x` decodes to the literal two characters; in `/.../` pattern
literals only `\/` is unescaped to `/` and every other `\x` sequence is
preserved verbatim. The source unescaping functions agree with the claim's
unit-at-a-time reading on every input. -/
theorem C7_escape_rules (l : List Char) :
    unescapeLsclString l = unescapeStringSpec l ∧
      unescapeLsclPattern l = unescapePatternSpec l :=
  ⟨unescapeLsclString_eq_spec l, unescapeLsclPattern_eq_spec l⟩

/-! ## Lexer (`parse_lscl_tokens` and `_LSCL_TOKEN_PATTERN`)

The master pattern is a single alternation tried left to right at the
current position (Python `re` semantics: the first alternative that
matches wins). The alternatives, in order: inline comment, selector
element, special symbols, double-quoted string, single-quoted string,
pattern, number, bareword, bareword starting with a digit.
-/

/-- Whitespace stripped by `str.lstrip()` before each token (ASCII
whitespace; no claim involves non-ASCII whitespace). -/
def isPyWhitespace (c : Char) : Bool :=
  c = ' ' || c = '\t' || c = '\n' || c = '\r' ||
    c = Char.ofNat 11 || c = Char.ofNat 12

/-- Character class `[0-9]`. -/
def isAsciiDigit (c : Char) : Bool := '0' ≤ c && c ≤ '9'

/-- Character class `[A-Za-z_]`. -/
def isAlphaUnd (c : Char) : Bool :=
  ('A' ≤ c && c ≤ 'Z') || ('a' ≤ c && c ≤ 'z') || c = '_'

/-- Character class `[A-Za-z0-9_]`. -/
def isAlnumUnd (c : Char) : Bool := isAlphaUnd c || isAsciiDigit c

/-- Character class `[A-Za-z0-9_-]` of the digit-bareword alternative. -/
def isDigitBarewordChar (c : Char) : Bool := isAlnumUnd c || c = '-'

/-- Character class `[^\[\],]` of the selector-element alternative. -/
def isSelectorElemChar (c : Char) : Bool :=
  !(c = '[' || c = ']' || c = ',')

/-- Alternative 1, `#[^\n]*`: returns the remaining input after an inline
comment. -/
def matchComment : List Char → Option (List Char)
  | '#' :: rest => some (rest.dropWhile (· ≠ '\n'))
  | _ => none

/-- Alternative 2, `\[([^\[\],]+)\]`: the (greedy, unrescuable) inner text
must be non-empty and be immediately followed by `]`. -/
def matchSelector : List Char → Option (List Char × List Char)
  | '[' :: rest =>
      let inner := rest.takeWhile isSelectorElemChar
      if inner.isEmpty then none
      else
        match rest.dropWhile isSelectorElemChar with
        | ']' :: r => some (inner, r)
        | _ => none
  | _ => none

/-- Alternative 3: the special symbols, in the exact order of the source
alternation (`=>|==|!=|<=|>=|<|>|=~|!~|{|}|[|]|(|)|!|,`). -/
def symbolTable : List (List Char × LsclSimpleType) :=
  [(['=', '>'], .tAttr), (['=', '='], .tEq), (['!', '='], .tNeq),
   (['<', '='], .tLte), (['>', '='], .tGte), (['<'], .tLt), (['>'], .tGt),
   (['=', '~'], .tMatch), (['!', '~'], .tNmatch),
   (['\x7b'], .tLbrace), (['\x7d'], .tRbrace),
   (['['], .tLbrk), ([']'], .tRbrk), (['('], .tLparen), ([')'], .tRparen),
   (['!'], .tExcl), ([','], .tComma)]

/-- First symbol of `symbolTable` that is a prefix of the input, with the
remaining input. -/
def matchSymbol (l : List Char) : Option (LsclSimpleType × List Char) :=
  (symbolTable.find? (fun p => p.1.isPrefixOf l)).map
    (fun p => (p.2, l.drop p.1.length))

/-- Quoted-string body `((?:\\.|[^q])*)q` for a delimiter `q`, with the
regex engine's backtracking: an escaped pair `\x` (`x` not a newline) is
preferred, and if the rest of the match fails the backslash alone is
consumed as `[^q]` and scanning resumes at `x`. Returns the raw body (still
escaped) and the input after the closing delimiter. -/
def matchQuoted (q : Char) : List Char → Option (List Char × List Char)
  | [] => none
  | [c] => if c = q then some ([], []) else none
  | c :: d :: rest' =>
      if c = q then some ([], d :: rest')
      else if c = '\\' then
        if d = '\n' then
          (matchQuoted q (d :: rest')).map (fun p => ('\\' :: p.1, p.2))
        else
          match matchQuoted q rest' with
          | some p => some ('\\' :: d :: p.1, p.2)
          | none =>
              (matchQuoted q (d :: rest')).map (fun p => ('\\' :: p.1, p.2))
      else (matchQuoted q (d :: rest')).map (fun p => (c :: p.1, p.2))

/-- Unsigned part of alternative 7 (`[0-9]+(?:\.[0-9]*)?`): one or more
digits, optionally followed by `.` and zero or more digits; returns the
matched lexeme and the remaining input. -/
def matchNumberBody (l : List Char) : Option (List Char × List Char) :=
  let digits := l.takeWhile isAsciiDigit
  if digits.isEmpty then none
  else
    match l.dropWhile isAsciiDigit with
    | '.' :: r =>
        some (digits ++ '.' :: r.takeWhile isAsciiDigit,
          r.dropWhile isAsciiDigit)
    | afterDigits => some (digits, afterDigits)

/-- Alternative 7, `-?[0-9]+(?:\.[0-9]*)?`: an optional minus sign then
the unsigned part. Note that the fractional digits may be empty. -/
def matchNumber (l : List Char) : Option (List Char × List Char) :=
  match l with
  | c :: r =>
      if c = '-' then (matchNumberBody r).map (fun p => ('-' :: p.1, p.2))
      else matchNumberBody (c :: r)
  | [] => none

/-- Alternative 8, `[A-Za-z_][A-Za-z0-9_]+`: at least two characters. -/
def matchBareword : List Char → Option (List Char × List Char)
  | c :: rest =>
      if isAlphaUnd c then
        let more := rest.takeWhile isAlnumUnd
        if more.isEmpty then none
        else some (c :: more, rest.dropWhile isAlnumUnd)
      else none
  | [] => none

/-- Alternative 9, `[A-Za-z0-9_-]+`. -/
def matchDigitBareword (l : List Char) : Option (List Char × List Char) :=
  let word := l.takeWhile isDigitBarewordChar
  if word.isEmpty then none
  else some (word, l.dropWhile isDigitBarewordChar)

/-- Embedding of `_LSCL_SIMPLE_TOKEN_MAPPING` restricted to barewords: the
keyword entries of the dictionary (a matched bareword can never equal a
symbol entry). -/
def keywordType (s : String) : Option LsclSimpleType :=
  if s = "if" then some .tIf
  else if s = "else" then some .tElse
  else if s = "in" then some .tIn
  else if s = "not" then some .tNot
  else if s = "and" then some .tAnd
  else if s = "or" then some .tOr
  else if s = "xor" then some .tXor
  else if s = "nand" then some .tNand
  else none

/-- Value of `[0-9]+` as a natural number. -/
def digitsToNat (l : List Char) : Nat :=
  l.foldl (fun acc c => acc * 10 + (c.toNat - 48)) 0

/-- Python `int(raw)` on a number lexeme without a dot. -/
def rawToInt : List Char → Int
  | '-' :: ds => -(digitsToNat ds : Int)
  | ds => (digitsToNat ds : Int)

/-- Number-token value, mirroring case 7 of `parse_lscl_tokens`:
`Decimal(raw)` when the lexeme contains a `.`, `int(raw)` otherwise. -/
def numberValue (raw : List Char) : NumValue :=
  if raw.contains '.' then .decVal raw.asString else .intVal (rawToInt raw)

/-- Whether a `NumValue` is a decimal (`Decimal`) rather than an `int`. -/
def NumValue.isDec : NumValue → Bool
  | .intVal _ => false
  | .decVal _ => true

/-- Alternatives 7-9 of the master pattern (number, bareword, digit
bareword), tried in order. -/
def lexOneTail (l : List Char) : Option (Option LsclToken × List Char) :=
  match matchNumber l with
  | some (raw, rest) =>
      some (some (.num (numberValue raw) raw.asString), rest)
  | none =>
  match matchBareword l with
  | some (word, rest) =>
      match keywordType word.asString with
      | some t => some (some (.simple t), rest)
      | none => some (some (.str .bareword word.asString), rest)
  | none =>
  match matchDigitBareword l with
  | some (word, rest) =>
      some (some (.str .digitBareword word.asString), rest)
  | none => none

/-- Alternatives 4-9 of the master pattern: quoted strings and patterns
(alternatives 4-6), falling through to `lexOneTail` when the head is not a
delimiter or the quoted body does not match. -/
def lexQuotesOrTail (l : List Char) :
    Option (Option LsclToken × List Char) :=
  match l with
  | '"' :: rest =>
      match matchQuoted '"' rest with
      | some (body, rest') =>
          some (some (.str .dquot (unescapeLsclString body).asString), rest')
      | none => lexOneTail l
  | '\'' :: rest =>
      match matchQuoted '\'' rest with
      | some (body, rest') =>
          some (some (.str .squot (unescapeLsclString body).asString), rest')
      | none => lexOneTail l
  | '/' :: rest =>
      match matchQuoted '/' rest with
      | some (body, rest') =>
          some (some
            (.str .patternTok (unescapeLsclPattern body).asString), rest')
      | none => lexOneTail l
  | _ => lexOneTail l

/-- One lexing step at the current position: tries the alternatives of
`_LSCL_TOKEN_PATTERN` in order. `some (none, rest)` is a matched comment
(discarded by the lexer), `some (some t, rest)` a matched token, `none` an
unparsable position (`DecodeError`). -/
def lexOne (l : List Char) : Option (Option LsclToken × List Char) :=
  match matchComment l with
  | some rest => some (none, rest)
  | none =>
  match matchSelector l with
  | some (inner, rest) =>
      some (some (.str .selectorElement inner.asString), rest)
  | none =>
  match matchSymbol l with
  | some (t, rest) => some (some (.simple t), rest)
  | none => lexQuotesOrTail l

/-- Lexer failure: an unparsable position (`DecodeError`), or fuel
exhaustion (an artefact of the embedding; one unit of fuel is spent per
match and a match always consumes at least one character, so
`length + 1` units never run out). -/
inductive LexErr where
  | decodeErr
  | fuelErr
  deriving Repr, DecidableEq

/-- Lexer loop of `parse_lscl_tokens`: strip leading whitespace, stop with
the `END` sentinel on empty input, otherwise match one token and continue.
Tokens produced before a failure are kept, mirroring the lazy generator. -/
def lexTokensAux : Nat → List Char → List LsclToken × Option LexErr
  | 0, _ => ([], some .fuelErr)
  | fuel + 1, l =>
      let l' := l.dropWhile isPyWhitespace
      if l'.isEmpty then ([.simple .tEnd], none)
      else
        match lexOne l' with
        | none => ([], some .decodeErr)
        | some (none, rest) => lexTokensAux fuel rest
        | some (some t, rest) =>
            let (ts, e) := lexTokensAux fuel rest
            (t :: ts, e)

/-- Embedding of `parse_lscl_tokens` (positions omitted): the token stream
produced for a raw string, together with the error that interrupts it, if
any. -/
def lexTokens (s : String) : List LsclToken × Option LexErr :=
  lexTokensAux (s.length + 1) s.data

/-! ## Parser (`_parse_lscl_data`, `_parse_lscl_rvalue`,
`_parse_lscl_condition`, `_parse_lscl_content`, `parse_lscl`)
-/

/-- Parser failure, tagged by the Python exception it models.
`unexpectedToken` (`UnexpectedLsclToken`), `trailingCommaErr` (the
"Trailing commas have been disabled" `DecodeError`) and `lexErr` (a
`DecodeError` raised lazily by the token generator) are `DecodeError`s;
`attributeErr` models the `AttributeError` raised when a caller of
`_parse_lscl_rvalue` evaluates `token.type` after the method-call branch
returned a bare `LsclMethodCall` instead of a `(value, token)` pair;
`stopIter` models an exhausted token iterator; `fuelErr` is an artefact of
the fuel-based embedding. -/
inductive PErr where
  | unexpectedToken (t : LsclToken)
  | trailingCommaErr
  | lexErr
  | stopIter
  | attributeErr
  | fuelErr
  deriving Repr

/-- Whether a parser failure is a `DecodeError` in the source's error
taxonomy. -/
def PErr.isDecodeError : PErr → Bool
  | .unexpectedToken _ => true
  | .trailingCommaErr => true
  | .lexErr => true
  | _ => false

/-- Token stream: the tokens not yet consumed, plus the error (if any) that
the lazy generator raises after them. -/
structure TokStream where
  toks : List LsclToken
  trailingErr : Option LexErr
  deriving Repr

/-- Python `next(token_iter)`: the next token, or the generator's deferred
error once the produced tokens are exhausted. -/
def nextTok (st : TokStream) : Except PErr (LsclToken × TokStream) :=
  match st.toks with
  | t :: rest => .ok (t, ⟨rest, st.trailingErr⟩)
  | [] =>
      match st.trailingErr with
      | some _ => .error .lexErr
      | none => .error .stopIter

/-- Python `chain(iter([token]), token_iter)`: re-insert a token at the
front of the stream. -/
def pushBack (t : LsclToken) (st : TokStream) : TokStream :=
  ⟨t :: st.toks, st.trailingErr⟩

/-- Whether a token is the simple token of the given type. -/
def LsclToken.isSimple : LsclToken → LsclSimpleType → Bool
  | .simple t, k => t == k
  | _, _ => false

/-- In-place update of position `i` of a list (identity when out of
range). -/
def listUpdate {α : Type} : List α → Nat → (α → α) → List α
  | [], _, _ => []
  | x :: xs, 0, f => f x :: xs
  | x :: xs, n + 1, f => x :: listUpdate xs n f

/-- Allocation of a fresh connective node; its id is its arena index. -/
def arenaAlloc (a : LsclArena) (n : LsclConnNode) : LsclArena × Nat :=
  (a ++ [n], a.length)

/-- The in-place `current.conditions.append(c)` on node `i`. -/
def arenaAppendChild (a : LsclArena) (i : Nat) (c : LsclCond) : LsclArena :=
  listUpdate a i (fun n => ⟨n.kind, n.conditions ++ [c]⟩)

/-- Python `isinstance(current, LsclAnd)` and friends: whether the current
connective (an arena id, or `none`) is a node of the given kind. -/
def currentIsKind (a : LsclArena) (cur : Option Nat) (k : LsclConnKind) :
    Bool :=
  match cur with
  | none => false
  | some i =>
      match a.get? i with
      | some n => n.kind == k
      | none => false

/-- The selector-collecting loop shared by `_parse_lscl_rvalue` and the
`!`-selector branch of `_parse_lscl_condition`: consume consecutive
`SELECTOR_ELEMENT` tokens, returning the collected names and the first
other token (the loop always meets one because of the `END` sentinel). -/
def collectSelectorsAux (tr : Option LexErr) : List String →
    List LsclToken → Except PErr (List String × LsclToken × TokStream)
  | acc, .str .selectorElement v :: rest =>
      collectSelectorsAux tr (acc ++ [v]) rest
  | acc, t :: rest => .ok (acc, t, ⟨rest, tr⟩)
  | _, [] =>
      match tr with
      | some _ => .error .lexErr
      | none => .error .stopIter

/-- The selector-collecting loop, starting from a token stream. -/
def collectSelectors (acc : List String) (st : TokStream) :
    Except PErr (List String × LsclToken × TokStream) :=
  collectSelectorsAux st.trailingErr acc st.toks

/-- Python `dct[key] = value` on an insertion-ordered dict: overwrite in
place if the key exists, append otherwise. -/
def dictInsert (k : String) (v : LsclData) :
    List (String × LsclData) → List (String × LsclData)
  | [] => [(k, v)]
  | (k', v') :: rest =>
      if k' = k then (k', v) :: rest else (k', v') :: dictInsert k v rest

mutual

/-- Embedding of `_parse_lscl_data`. -/
def parseData : Nat → Bool → TokStream → Except PErr (LsclData × TokStream)
  | 0, _, _ => .error .fuelErr
  | fuel + 1, accept, st => do
      let (tok, st) ← nextTok st
      match tok with
      | .str .bareword v | .str .squot v | .str .dquot v =>
          .ok (.str v, st)
      | .num (.intVal n) _ => .ok (.int n, st)
      | .num (.decVal d) _ => .ok (.dec d, st)
      | .str .selectorElement v =>
          -- Re-lex and re-parse the selector contents as data; leftover
          -- re-lexed tokens are discarded (and their deferred lexing
          -- errors never raised) as in the source.
          let (toks2, lerr2) := lexTokens v
          let (value, _) ← parseData fuel accept ⟨toks2, lerr2⟩
          .ok (.list [value], st)
      | .simple .tLbrk =>
          let (items, st) ← parseDataListLoop fuel accept true [] st
          .ok (.list items, st)
      | .simple .tLbrace =>
          let (entries, st) ← parseDictLoop fuel accept [] st
          .ok (.dict entries, st)
      | _ => .error (.unexpectedToken tok)

/-- The list loop of `_parse_lscl_data` (also reused verbatim by the `[`
branch of `_parse_lscl_rvalue`): elements parsed as data, separated by
commas, with the `i > 0` trailing-comma check at a closing `]`. -/
def parseDataListLoop : Nat → Bool → Bool → List LsclData → TokStream →
    Except PErr (List LsclData × TokStream)
  | 0, _, _, _, _ => .error .fuelErr
  | fuel + 1, accept, first, acc, st => do
      let (tok, st) ← nextTok st
      if tok.isSimple .tRbrk then
        if !accept && !first then .error .trailingCommaErr
        else .ok (acc, st)
      else do
        let (value, st) ← parseData fuel accept (pushBack tok st)
        let acc := acc ++ [value]
        let (tok2, st) ← nextTok st
        if tok2.isSimple .tRbrk then .ok (acc, st)
        else if tok2.isSimple .tComma then
          parseDataListLoop fuel accept false acc st
        else .error (.unexpectedToken tok2)

/-- The dict loop of `_parse_lscl_data`: `key => value` entries terminated
by `}`; any string-bearing token is a key; duplicate keys overwrite. -/
def parseDictLoop : Nat → Bool → List (String × LsclData) → TokStream →
    Except PErr (List (String × LsclData) × TokStream)
  | 0, _, _, _ => .error .fuelErr
  | fuel + 1, accept, acc, st => do
      let (tok, st) ← nextTok st
      if tok.isSimple .tRbrace then .ok (acc, st)
      else
        match tok with
        | .str _ key => do
            let (tok2, st) ← nextTok st
            if tok2.isSimple .tAttr then do
              let (value, st) ← parseData fuel accept st
              parseDictLoop fuel accept (dictInsert key value acc) st
            else .error (.unexpectedToken tok2)
        | _ => .error (.unexpectedToken tok)

/-- Embedding of `_parse_lscl_rvalue`. The second component is the token
following the rvalue — except in the method-call branch, which mirrors the
source's `return LsclMethodCall(name=method, params=params)` (no following
token) by returning `none`; a caller that then evaluates `token.type`
fails with the modelled `AttributeError`. -/
def parseRValue : Nat → Bool → TokStream →
    Except PErr (LsclRValue × Option LsclToken × TokStream)
  | 0, _, _ => .error .fuelErr
  | fuel + 1, accept, st => do
      let (tok, st) ← nextTok st
      match tok with
      | .str .squot v | .str .dquot v | .str .patternTok v => do
          let (tok2, st) ← nextTok st
          .ok (.str v, some tok2, st)
      | .num (.intVal n) _ => do
          let (tok2, st) ← nextTok st
          .ok (.int n, some tok2, st)
      | .num (.decVal d) _ => do
          let (tok2, st) ← nextTok st
          .ok (.dec d, some tok2, st)
      | .str .selectorElement v => do
          let (names, brk, st) ← collectSelectors [v] st
          .ok (.selector names, some brk, st)
      | .simple .tLbrk => do
          let (items, st) ← parseDataListLoop fuel accept true [] st
          let (tok2, st) ← nextTok st
          .ok (.list items, some tok2, st)
      | .str .bareword m => do
          let (tok2, st) ← nextTok st
          if tok2.isSimple .tLparen then do
            let (params, st) ← parseMethodParamsLoop fuel accept true [] st
            .ok (.methodCall m params, none, st)
          else .error (.unexpectedToken tok2)
      | _ => .error (.unexpectedToken tok)

/-- The parameter loop of the method-call branch of `_parse_lscl_rvalue`:
rvalues separated by commas, with the `i > 0` trailing-comma check at a
closing `)`. A nested rvalue that comes back without a following token
(that is, a nested method call) makes the `token.type` access fail with
`AttributeError`. -/
def parseMethodParamsLoop : Nat → Bool → Bool → List LsclRValue →
    TokStream → Except PErr (List LsclRValue × TokStream)
  | 0, _, _, _, _ => .error .fuelErr
  | fuel + 1, accept, first, acc, st => do
      let (tok, st) ← nextTok st
      if tok.isSimple .tRparen then
        if !accept && !first then .error .trailingCommaErr
        else .ok (acc, st)
      else do
        let (rv, tokOpt, st) ← parseRValue fuel accept (pushBack tok st)
        match tokOpt with
        | none => .error .attributeErr
        | some tok2 =>
            let acc := acc ++ [rv]
            if tok2.isSimple .tRparen then .ok (acc, st)
            else if tok2.isSimple .tComma then
              parseMethodParamsLoop fuel accept false acc st
            else .error (.unexpectedToken tok2)

/-- Embedding of `_parse_lscl_condition` (the loop with a `current`
connective). -/
def parseCondition : Nat → Bool → LsclSimpleType → TokStream → LsclArena →
    Except PErr (LsclCond × TokStream × LsclArena)
  | 0, _, _, _, _ => .error .fuelErr
  | fuel + 1, accept, endT, st, arena =>
      parseCondLoop fuel accept endT none st arena

/-- One iteration of the `_parse_lscl_condition` loop: parse an expression
into `new`, then execute the faithful transcription of

`if current is not None: new = current; current.conditions.append(new)`

(which appends the current connective node to its own conditions list and
discards the freshly parsed expression), then stop at the end token or
update the current connective. -/
def parseCondLoop : Nat → Bool → LsclSimpleType → Option Nat → TokStream →
    LsclArena → Except PErr (LsclCond × TokStream × LsclArena)
  | 0, _, _, _, _, _ => .error .fuelErr
  | fuel + 1, accept, endT, current, st, arena => do
      let (tok, st) ← nextTok st
      let (new, tokAfter, st, arena) ← do
        if tok.isSimple .tExcl then do
          let (tok2, st) ← nextTok st
          if tok2.isSimple .tLparen then do
            let (c, st, arena) ← parseCondition fuel accept .tRparen st arena
            let (tok3, st) ← nextTok st
            .ok ((.notC c : LsclCond), tok3, st, arena)
          else
            match tok2 with
            | .str .selectorElement v => do
                let (names, brk, st) ← collectSelectors [v] st
                .ok ((.notC (.rv (.selector names)) : LsclCond), brk, st,
                  arena)
            | _ => .error (.unexpectedToken tok2)
        else if tok.isSimple .tLparen then do
          let (c, st, arena) ← parseCondition fuel accept .tRparen st arena
          let (tok3, st) ← nextTok st
          .ok (c, tok3, st, arena)
        else do
          let (first, tokOpt, st) ← parseRValue fuel accept (pushBack tok st)
          match tokOpt with
          | none => .error .attributeErr
          | some opTok =>
              match opTok with
              | .simple .tIn => do
                  let (second, tokOpt2, st) ← parseRValue fuel accept st
                  match tokOpt2 with
                  | none => .error .attributeErr
                  | some t2 =>
                      .ok ((.inOp first second : LsclCond), t2, st, arena)
              | .simple .tNot => do
                  let (tok2, st) ← nextTok st
                  if tok2.isSimple .tIn then do
                    let (second, tokOpt2, st) ← parseRValue fuel accept st
                    match tokOpt2 with
                    | none => .error .attributeErr
                    | some t2 =>
                        .ok ((.notInOp first second : LsclCond), t2, st,
                          arena)
                  else .error (.unexpectedToken tok2)
              | .simple .tEq => do
                  let (second, tokOpt2, st) ← parseRValue fuel accept st
                  match tokOpt2 with
                  | none => .error .attributeErr
                  | some t2 =>
                      .ok ((.eqOp first second : LsclCond), t2, st, arena)
              | .simple .tNeq => do
                  let (second, tokOpt2, st) ← parseRValue fuel accept st
                  match tokOpt2 with
                  | none => .error .attributeErr
                  | some t2 =>
                      .ok ((.neqOp first second : LsclCond), t2, st, arena)
              | .simple .tLte => do
                  let (second, tokOpt2, st) ← parseRValue fuel accept st
                  match tokOpt2 with
                  | none => .error .attributeErr
                  | some t2 =>
                      .ok ((.lteOp first second : LsclCond), t2, st, arena)
              | .simple .tGte => do
                  let (second, tokOpt2, st) ← parseRValue fuel accept st
                  match tokOpt2 with
                  | none => .error .attributeErr
                  | some t2 =>
                      .ok ((.gteOp first second : LsclCond), t2, st, arena)
              | .simple .tLt => do
                  let (second, tokOpt2, st) ← parseRValue fuel accept st
                  match tokOpt2 with
                  | none => .error .attributeErr
                  | some t2 =>
                      .ok ((.ltOp first second : LsclCond), t2, st, arena)
              | .simple .tGt => do
                  let (second, tokOpt2, st) ← parseRValue fuel accept st
                  match tokOpt2 with
                  | none => .error .attributeErr
                  | some t2 =>
                      .ok ((.gtOp first second : LsclCond), t2, st, arena)
              | .simple .tMatch => do
                  let (tok2, st) ← nextTok st
                  match tok2 with
                  | .str .squot v | .str .dquot v | .str .patternTok v => do
                      let (tok3, st) ← nextTok st
                      .ok ((.matchOp first v : LsclCond), tok3, st, arena)
                  | _ => .error (.unexpectedToken tok2)
              | .simple .tNmatch => do
                  let (tok2, st) ← nextTok st
                  match tok2 with
                  | .str .squot v | .str .dquot v | .str .patternTok v => do
                      let (tok3, st) ← nextTok st
                      .ok ((.nmatchOp first v : LsclCond), tok3, st, arena)
                  | _ => .error (.unexpectedToken tok2)
              | _ => .ok ((.rv first : LsclCond), opTok, st, arena)
      -- `if current is not None: new = current;
      --  current.conditions.append(new)`
      let (new, arena) :=
        match current with
        | some cid => ((.connRef cid : LsclCond),
            arenaAppendChild arena cid (.connRef cid))
        | none => (new, arena)
      if tokAfter.isSimple endT then .ok (new, st, arena)
      else if tokAfter.isSimple .tAnd &&
          !(currentIsKind arena current .andK) then
        let (arena, id) := arenaAlloc arena ⟨.andK, [new]⟩
        parseCondLoop fuel accept endT (some id) st arena
      else if tokAfter.isSimple .tOr &&
          !(currentIsKind arena current .orK) then
        let (arena, id) := arenaAlloc arena ⟨.orK, [new]⟩
        parseCondLoop fuel accept endT (some id) st arena
      else if tokAfter.isSimple .tXor &&
          !(currentIsKind arena current .xorK) then
        let (arena, id) := arenaAlloc arena ⟨.xorK, [new]⟩
        parseCondLoop fuel accept endT (some id) st arena
      else if tokAfter.isSimple .tNand &&
          !(currentIsKind arena current .nandK) then
        let (arena, id) := arenaAlloc arena ⟨.nandK, [new]⟩
        parseCondLoop fuel accept endT (some id) st arena
      else .error (.unexpectedToken tokAfter)

/-- Embedding of `_parse_lscl_content`. -/
def parseContent : Nat → Bool → LsclSimpleType → TokStream → LsclArena →
    Except PErr (LsclContent × TokStream × LsclArena)
  | 0, _, _, _, _ => .error .fuelErr
  | fuel + 1, accept, endT, st, arena => do
      let (tok, st) ← nextTok st
      parseContentLoop fuel accept endT [] tok st arena

/-- The `while token.type != end_token_type` loop of
`_parse_lscl_content`, carrying the current lookahead token. -/
def parseContentLoop : Nat → Bool → LsclSimpleType → LsclContent →
    LsclToken → TokStream → LsclArena →
    Except PErr (LsclContent × TokStream × LsclArena)
  | 0, _, _, _, _, _, _ => .error .fuelErr
  | fuel + 1, accept, endT, acc, tok, st, arena => do
      if tok.isSimple endT then .ok (acc, st, arena)
      else if tok.isSimple .tIf then do
        let (cond, st, arena) ← parseCondition fuel accept .tLbrace st arena
        let (body, st, arena) ← parseContent fuel accept .tRbrace st arena
        let (branches, dflt, tok2, st, arena) ←
          parseElseLoop fuel accept [(cond, body)] st arena
        parseContentLoop fuel accept endT
          (acc ++ [.conds branches dflt]) tok2 st arena
      else do
        let name ←
          match tok with
          | .num _ raw => pure raw
          | .str .bareword v => pure v
          | .str .digitBareword v => pure v
          | _ => .error (.unexpectedToken tok)
        let (opTok, st) ← nextTok st
        if opTok.isSimple .tLbrace then do
          let (body, st, arena) ← parseContent fuel accept .tRbrace st arena
          let (tok2, st) ← nextTok st
          parseContentLoop fuel accept endT
            (acc ++ [.block name body]) tok2 st arena
        else if opTok.isSimple .tAttr then do
          let (value, st) ← parseData fuel accept st
          let (tok2, st) ← nextTok st
          parseContentLoop fuel accept endT
            (acc ++ [.attr name value]) tok2 st arena
        else .error (.unexpectedToken opTok)

/-- The `else` loop following an `if` branch in `_parse_lscl_content`:
keeps adding `else if` branches, stops with a default body after
`else {`, and otherwise returns the token that starts the next content
item. -/
def parseElseLoop : Nat → Bool → List (LsclCond × LsclContent) →
    TokStream → LsclArena →
    Except PErr (List (LsclCond × LsclContent) × Option LsclContent ×
      LsclToken × TokStream × LsclArena)
  | 0, _, _, _, _ => .error .fuelErr
  | fuel + 1, accept, branches, st, arena => do
      let (tok, st) ← nextTok st
      if !(tok.isSimple .tElse) then .ok (branches, none, tok, st, arena)
      else do
        let (tok2, st) ← nextTok st
        if tok2.isSimple .tLbrace then do
          let (dflt, st, arena) ← parseContent fuel accept .tRbrace st arena
          let (tok3, st) ← nextTok st
          .ok (branches, some dflt, tok3, st, arena)
        else if tok2.isSimple .tIf then do
          let (cond, st, arena) ← parseCondition fuel accept .tLbrace st
            arena
          let (body, st, arena) ← parseContent fuel accept .tRbrace st arena
          parseElseLoop fuel accept (branches ++ [(cond, body)]) st arena
        else .error (.unexpectedToken tok2)

end

/-- Embedding of `parse_lscl`: lex, then parse content up to `END`. The
fuel is an upper bound on the number of parser steps; it is never reached
on the inputs evaluated in this development. -/
def parseLscl (raw : String) (acceptTrailingCommas : Bool := false) :
    Except PErr (LsclContent × LsclArena) := do
  let (toks, lerr) := lexTokens raw
  let (content, _, arena) ←
    parseContent (8 * toks.length + 32) acceptTrailingCommas .tEnd
      ⟨toks, lerr⟩ []
  .ok (content, arena)

/-! ## Finite denotation of arena conditions

A parsed condition is a finite value (the nested pydantic models of the
claims) exactly when unfolding its `connRef` references terminates. The
fuel-indexed reading below returns that finite value when some fuel
suffices; a node whose conditions list reaches the node itself (the
self-`append` of `_parse_lscl_condition`) has no finite reading at any
fuel, which is the arena-model counterpart of the cyclic Python object.
-/

/-- Finite (acyclic) condition tree: the shape the claims and the test
suite describe with nested `LsclAnd(...)`/`LsclOr(...)` models. -/
inductive FinCond where
  | rv (v : LsclRValue)
  | conn (k : LsclConnKind) (children : List FinCond)
  | notC (c : FinCond)
  | inOp (needle haystack : LsclRValue)
  | notInOp (needle haystack : LsclRValue)
  | eqOp (first second : LsclRValue)
  | neqOp (first second : LsclRValue)
  | lteOp (first second : LsclRValue)
  | gteOp (first second : LsclRValue)
  | ltOp (first second : LsclRValue)
  | gtOp (first second : LsclRValue)
  | matchOp (value : LsclRValue) (pat : String)
  | nmatchOp (value : LsclRValue) (pat : String)
  deriving Repr

mutual

/-- Reading of an arena condition as a finite tree, spending one unit of
fuel per `connRef` expansion. -/
def denoteCond (a : LsclArena) : Nat → LsclCond → Option FinCond
  | _, .rv v => some (.rv v)
  | 0, .connRef _ => none
  | fuel + 1, .connRef i =>
      match a.get? i with
      | none => none
      | some n => (denoteList a fuel n.conditions).map (.conn n.kind)
  | fuel, .notC c => (denoteCond a fuel c).map .notC
  | _, .inOp x y => some (.inOp x y)
  | _, .notInOp x y => some (.notInOp x y)
  | _, .eqOp x y => some (.eqOp x y)
  | _, .neqOp x y => some (.neqOp x y)
  | _, .lteOp x y => some (.lteOp x y)
  | _, .gteOp x y => some (.gteOp x y)
  | _, .ltOp x y => some (.ltOp x y)
  | _, .gtOp x y => some (.gtOp x y)
  | _, .matchOp x p => some (.matchOp x p)
  | _, .nmatchOp x p => some (.nmatchOp x p)

/-- Reading of a list of arena conditions as finite trees. -/
def denoteList (a : LsclArena) : Nat → List LsclCond → Option (List FinCond)
  | _, [] => some []
  | fuel, c :: cs => do
      let f ← denoteCond a fuel c
      let fs ← denoteList a fuel cs
      some (f :: fs)

end

/-- Arena produced by parsing `if 1 and 2 {}`: a single `LsclAnd` node
whose conditions list contains the node itself (and not the atom `2`,
which the connective-composition code discards). -/
def cyclicAndArena : LsclArena :=
  [⟨.andK, [.rv (.int 1), .connRef 0]⟩]

theorem cyclicAndArena_no_denotation :
    ∀ fuel, denoteCond cyclicAndArena fuel (.connRef 0) = none := by
  intro fuel
  induction fuel with
  | zero => simp [denoteCond]
  | succ fuel ih =>
      simp only [denoteCond, cyclicAndArena, List.get?] at ih ⊢
      simp [denoteList, denoteCond, ih]

/-- Claim C1 (code bug): the round-trip promise
`parse(render(parse(s))) == parse(s)` fails on the accepted source
`"if 1 and 2 {}"`. Parsing succeeds, but because `_parse_lscl_condition`
runs `new = current` before `current.conditions.append(new)`, the branch
condition is an `LsclAnd` whose conditions list is `[1, <the node
itself>]`: it has no finite reading at any fuel, and rendering it recurses
forever (`RecursionError`), so the round-trip equation cannot hold. -/
theorem C1_roundtrip_failing_input :
    parseLscl "if 1 and 2 \x7b\x7d" =
      .ok ([.conds [(.connRef 0, [])] none], cyclicAndArena) ∧
    ∀ fuel, denoteCond cyclicAndArena fuel (.connRef 0) = none :=
  ⟨rfl, cyclicAndArena_no_denotation⟩

/-- Arena produced by parsing `if !(1 and 2 or 3) {}`: node 0 is the
`LsclAnd` whose conditions are `[1, <node 0>]` (the atom `2` was
discarded), node 1 the `LsclOr` whose conditions are `[<node 0>,
<node 1>]` (the atom `3` was discarded). Both nodes contain themselves. -/
def cyclicOrArena : LsclArena :=
  [⟨.andK, [.rv (.int 1), .connRef 0]⟩,
   ⟨.orK, [.connRef 0, .connRef 1]⟩]

theorem cyclicOrArena_no_denotation :
    ∀ fuel, denoteCond cyclicOrArena fuel (.connRef 1) = none := by
  intro fuel
  induction fuel with
  | zero => simp [denoteCond]
  | succ fuel ih =>
      simp only [denoteCond, cyclicOrArena, List.get?] at ih ⊢
      cases h : denoteCond
          [⟨.andK, [.rv (.int 1), .connRef 0]⟩,
           ⟨.orK, [.connRef 0, .connRef 1]⟩] fuel (.connRef 0) with
      | none => simp [denoteList, h]
      | some f => simp [denoteList, h, ih]

/-- Claim C2 (code bug): `parse("if !(1 and 2 or 3) {}")` does yield one
`Conditions` element with a single empty-bodied branch and no default, but
because `_parse_lscl_condition` runs `new = current` before
`current.conditions.append(new)`, the branch condition is
`Not(<LsclOr node>)` where the `LsclOr` node's conditions are
`[<the LsclAnd node>, <the LsclOr node itself>]` (and the `LsclAnd` node's
conditions are `[1, <itself>]`): a cyclic object with no finite reading at
any fuel, not the claimed `Not(Or([And([1, 2]), 3]))`. -/
theorem C2_not_or_and_failing_input :
    parseLscl "if !(1 and 2 or 3) \x7b\x7d" =
      .ok ([.conds [(.notC (.connRef 1), [])] none], cyclicOrArena) ∧
    ∀ fuel,
      denoteCond cyclicOrArena fuel (.notC (.connRef 1)) = none := by
  refine ⟨rfl, fun fuel => ?_⟩
  simp [denoteCond, cyclicOrArena_no_denotation fuel]

/-- Claim C3 (code bug): `parse("0auth {}")` does not return
`[Block(name="0auth", content=[])]`. The `NUMBER` alternative of the
master pattern precedes the `DIGIT_BAREWORD` alternative and matches the
prefix `0`, so the lexer emits `NUMBER "0"` then `BAREWORD "auth"`, and
`_parse_lscl_content` raises `UnexpectedLsclToken` (a `DecodeError`) on
the bareword where `{` or `=>` was expected. -/
theorem C3_digit_block_name_failing_input :
    parseLscl "0auth \x7b\x7d" =
      .error (.unexpectedToken (.str .bareword "auth")) ∧
    lexTokens "0auth \x7b\x7d" =
      ([.num (.intVal 0) "0", .str .bareword "auth", .simple .tLbrace,
        .simple .tRbrace, .simple .tEnd], none) ∧
    (PErr.unexpectedToken (.str .bareword "auth")).isDecodeError = true :=
  ⟨rfl, rfl, rfl⟩

/-- Claim C4 (code bug): with `accept_trailing_commas=false`,
`parse("if hello('x',) == 0 {}")` does raise the trailing-comma
`DecodeError`; but with `accept_trailing_commas=true` it raises
`AttributeError` instead of returning the claimed `Conditions` value,
because the method-call branch of `_parse_lscl_rvalue` returns a bare
`LsclMethodCall` with no following token, and the caller's
`first, token = ...` unpacking makes `token` a pydantic `(field, value)`
pair whose `.type` access fails. -/
theorem C4_method_call_trailing_comma :
    parseLscl "if hello('x',) == 0 \x7b\x7d" true = .error .attributeErr ∧
    PErr.attributeErr.isDecodeError = false ∧
    parseLscl "if hello('x',) == 0 \x7b\x7d" false =
      .error .trailingCommaErr ∧
    PErr.trailingCommaErr.isDecodeError = true :=
  ⟨rfl, rfl, rfl, rfl⟩

/-! ## Renderer: string rendering (`_render_lscl_string`,
`lscl/renderer.py`)
-/

/-- Renderer failure: `StringRenderingError` (carrying the string) or
`SelectorElementRenderingError` (carrying the selector element), from
`lscl/errors.py`. -/
inductive RenderErr where
  | stringRenderingError (s : String)
  | selectorElementRenderingError (s : String)
  deriving Repr

/-- Fullmatch of `_BAREWORD_PATTERN` (`[A-Za-z_][A-Za-z0-9_]+`): at least
two characters. -/
def isBarewordFullmatch : List Char → Bool
  | c :: rest => isAlphaUnd c && !rest.isEmpty && rest.all isAlnumUnd
  | [] => false

/-- The character class of `_STRING_ESCAPE_PATTERN`
(`[\\\\\"'\0\n\r\t]`): backslash, double quote, single quote, NUL,
newline, carriage return, tab. -/
def needsEscape (c : Char) : Bool :=
  c == '\\' || c == '"' || c == '\'' || c == Char.ofNat 0 ||
    c == '\n' || c == '\r' || c == '\t'

/-- `_DOUBLE_QUOTE_STRING_ESCAPE_DISABLED_REPLACEMENTS`: the base
escapes-disabled replacements (`\`, newline, tab mapped to themselves)
plus the single quote mapped to itself. -/
def dquotDisabledRepl (c : Char) : Option (List Char) :=
  if c == '\\' then some ['\\']
  else if c == '\n' then some ['\n']
  else if c == '\t' then some ['\t']
  else if c == '\'' then some ['\'']
  else none

/-- `_SINGLE_QUOTE_STRING_ESCAPE_DISABLED_REPLACEMENTS`: the base
escapes-disabled replacements plus the double quote mapped to itself. -/
def squotDisabledRepl (c : Char) : Option (List Char) :=
  if c == '\\' then some ['\\']
  else if c == '\n' then some ['\n']
  else if c == '\t' then some ['\t']
  else if c == '"' then some ['"']
  else none

/-- `_DOUBLE_QUOTE_STRING_ESCAPE_REPLACEMENTS`: the base escape-sequence
replacements with the double quote overridden to `\"`. -/
def dquotEnabledRepl (c : Char) : Option (List Char) :=
  if c == '\\' then some ['\\', '\\']
  else if c == Char.ofNat 0 then some ['\\', '0']
  else if c == '\n' then some ['\\', 'n']
  else if c == '\r' then some ['\\', 'r']
  else if c == '\t' then some ['\\', 't']
  else if c == '"' then some ['\\', '"']
  else if c == '\'' then some ['\'']
  else none

/-- `_SINGLE_QUOTE_STRING_ESCAPE_REPLACEMENTS`: the base escape-sequence
replacements with the single quote overridden to `\'`. -/
def squotEnabledRepl (c : Char) : Option (List Char) :=
  if c == '\\' then some ['\\', '\\']
  else if c == Char.ofNat 0 then some ['\\', '0']
  else if c == '\n' then some ['\\', 'n']
  else if c == '\r' then some ['\\', 'r']
  else if c == '\t' then some ['\\', 't']
  else if c == '"' then some ['"']
  else if c == '\'' then some ['\\', '\'']
  else none

/-- The `_STRING_ESCAPE_PATTERN.sub(repl, raw)` call of
`_render_lscl_string`: each character of the escape class is replaced
through the chosen replacement table, and a `KeyError` (a character of the
class missing from the table) aborts with `StringRenderingError`. -/
def subEscape (repl : Char → Option (List Char)) :
    List Char → Except Unit (List Char)
  | [] => .ok []
  | c :: rest =>
      if needsEscape c then
        match repl c with
        | none => .error ()
        | some out => (subEscape repl rest).map (out ++ ·)
      else (subEscape repl rest).map (c :: ·)

/-- Outcome of the substitution in `_render_lscl_string`: a `KeyError`
becomes `StringRenderingError(string=raw)`, a successful substitution is
wrapped in the chosen delimiter. -/
def wrapRendered (raw : String) (delim : Char)
    (e : Except Unit (List Char)) : Except RenderErr String :=
  match e with
  | .error () => .error (.stringRenderingError raw)
  | .ok body => .ok (delim :: body ++ [delim]).asString

/-- Embedding of `_render_lscl_string`: bareword short-circuit, delimiter
choice (double quotes unless the string contains `"` but no `'`),
replacement-table choice, escape substitution, and delimiter wrapping. -/
def renderLsclString (raw : String) (escapesSupported : Bool)
    (useBarewords : Bool) : Except RenderErr String :=
  if useBarewords && isBarewordFullmatch raw.data then .ok raw
  else
    let dquotDelim := !(raw.data.contains '"') || raw.data.contains '\''
    let repl :=
      if dquotDelim then
        if escapesSupported then dquotEnabledRepl else dquotDisabledRepl
      else
        if escapesSupported then squotEnabledRepl else squotDisabledRepl
    let delim : Char := if dquotDelim then '"' else '\''
    wrapRendered raw delim (subEscape repl raw.data)

/-- Whether an `Except` result is an error. -/
def exceptIsErr {ε α : Type} : Except ε α → Bool
  | .error _ => true
  | .ok _ => false

theorem charBeqFalse {a b : Char} (h : ¬a = b) : (a == b) = false := by
  simp [h]

theorem subEscape_isErr (repl : Char → Option (List Char)) :
    ∀ l : List Char,
      exceptIsErr (subEscape repl l) =
        l.any (fun c => needsEscape c && (repl c).isNone)
  | [] => rfl
  | c :: rest => by
      simp only [subEscape, List.any_cons]
      by_cases h : needsEscape c
      · simp only [h, if_pos, Bool.true_and]
        cases hr : repl c with
        | none => simp [exceptIsErr]
        | some out =>
            have ih := subEscape_isErr repl rest
            cases hs : subEscape repl rest with
            | error e => simp_all [exceptIsErr, Except.map]
            | ok body => simp_all [exceptIsErr, Except.map]
      · have ih := subEscape_isErr repl rest
        simp only [h]
        cases hs : subEscape repl rest with
        | error e => simp_all [exceptIsErr, Except.map]
        | ok body => simp_all [exceptIsErr, Except.map]

theorem dquotDisabledRepl_fail (c : Char) :
    (needsEscape c && (dquotDisabledRepl c).isNone) =
      (c == '"' || c == Char.ofNat 0 || c == '\r') := by
  simp only [needsEscape, dquotDisabledRepl]
  by_cases h1 : c = '\\' <;> by_cases h2 : c = '"' <;>
    by_cases h3 : c = '\'' <;> by_cases h4 : c = Char.ofNat 0 <;>
    by_cases h5 : c = '\n' <;> by_cases h6 : c = '\r' <;>
    by_cases h7 : c = '\t' <;> simp_all [charBeqFalse]

theorem squotDisabledRepl_fail (c : Char) :
    (needsEscape c && (squotDisabledRepl c).isNone) =
      (c == '\'' || c == Char.ofNat 0 || c == '\r') := by
  simp only [needsEscape, squotDisabledRepl]
  by_cases h1 : c = '\\' <;> by_cases h2 : c = '"' <;>
    by_cases h3 : c = '\'' <;> by_cases h4 : c = Char.ofNat 0 <;>
    by_cases h5 : c = '\n' <;> by_cases h6 : c = '\r' <;>
    by_cases h7 : c = '\t' <;> simp_all [charBeqFalse]

theorem wrapRendered_isErr (raw : String) (delim : Char)
    (e : Except Unit (List Char)) :
    exceptIsErr (wrapRendered raw delim e) = exceptIsErr e := by
  cases e with
  | error u => cases u; rfl
  | ok body => rfl

theorem charBeqComm (a b : Char) : (a == b) = (b == a) := by
  by_cases h : a = b
  · simp [h]
  · simp [h, Ne.symm h]

theorem contains_eq_any (l : List Char) (a : Char) :
    l.contains a = l.any (· == a) := by
  induction l with
  | nil => rfl
  | cons b bs ih =>
      simp only [List.contains_cons, List.any_cons, ih, charBeqComm a b]

theorem list_any_or {α : Type} (l : List α) (p q : α → Bool) :
    l.any (fun c => p c || q c) = (l.any p || l.any q) := by
  induction l with
  | nil => rfl
  | cons b bs ih =>
      cases hp : p b <;> cases hq : q b <;>
        simp_all [List.any_cons]

/-- Claim C6: with `escapes_supported=false`, rendering a string at a
quoted (non-bareword) site raises `StringRenderingError` exactly when the
string contains NUL, contains CR, or contains both a double and a single
quote. -/
theorem C6_string_rendering_error_iff (raw : String) :
    exceptIsErr (renderLsclString raw false false) =
      (raw.data.contains (Char.ofNat 0) || raw.data.contains '\r' ||
        (raw.data.contains '"' && raw.data.contains '\'')) := by
  simp only [renderLsclString, Bool.false_and, Bool.false_eq_true,
    if_false, wrapRendered_isErr, subEscape_isErr]
  have hd : (raw.data.any fun c =>
        needsEscape c && (dquotDisabledRepl c).isNone)
      = (raw.data.contains '"' || raw.data.contains (Char.ofNat 0) ||
          raw.data.contains '\r') := by
    simp only [dquotDisabledRepl_fail, list_any_or, ← contains_eq_any]
  have hs : (raw.data.any fun c =>
        needsEscape c && (squotDisabledRepl c).isNone)
      = (raw.data.contains '\'' || raw.data.contains (Char.ofNat 0) ||
          raw.data.contains '\r') := by
    simp only [squotDisabledRepl_fail, list_any_or, ← contains_eq_any]
  by_cases hq : raw.data.contains '"' = true <;>
    by_cases hp : raw.data.contains '\'' = true
  · simp only [hq, hp, Bool.not_true, Bool.false_or, reduceIte,
      Bool.true_and, Bool.or_true]
    rw [hd, hq, Bool.true_or, Bool.true_or]
  · rw [Bool.not_eq_true] at hp
    simp only [hq, hp, Bool.not_true, Bool.false_or, Bool.false_eq_true,
      if_false, Bool.and_false, Bool.or_false]
    rw [hs, hp, Bool.false_or]
  · rw [Bool.not_eq_true] at hq
    simp only [hq, hp, Bool.not_false, Bool.true_or, reduceIte,
      Bool.false_and, Bool.or_false]
    rw [hd, hq, Bool.false_or]
  · rw [Bool.not_eq_true] at hq
    rw [Bool.not_eq_true] at hp
    simp only [hq, hp, Bool.not_false, Bool.true_or, reduceIte,
      Bool.false_and, Bool.or_false]
    rw [hd, hq, Bool.false_or]

/-! ## Renderer: selector elements (`_render_lscl_selector_element`) -/

/-- The `field_reference_escape_style` rendering option
(`"none" | "percent" | "ampersand"`). -/
inductive FieldRefStyle where
  | styleNone
  | stylePercent
  | styleAmpersand
  deriving Repr, DecidableEq

/-- Character class `[0-9A-F]` of `_PERCENT_ENCODING_PATTERN`. -/
def isUpperHexDigit (c : Char) : Bool :=
  isAsciiDigit c || ('A' ≤ c && c ≤ 'F')

/-- The `_PERCENT_ENCODING_PATTERN.sub(r"%25\1", element)` call: each
`%XX` with two uppercase hexadecimal digits becomes `%25XX`; any other `%`
is left alone and scanning resumes at the next character. -/
def percentEncode : List Char → List Char
  | [] => []
  | [c] => [c]
  | [c, d] => c :: percentEncode [d]
  | c :: a :: b :: rest2 =>
      if c = '%' && isUpperHexDigit a && isUpperHexDigit b then
        '%' :: '2' :: '5' :: a :: b :: percentEncode rest2
      else c :: percentEncode (a :: b :: rest2)

/-- The `_AMPERSAND_ENCODING_PATTERN.sub(r"&#38;#\1;", element)` call,
with one unit of fuel per scanning step (the `length + 1` budget of
`ampEncode` never runs out; the fuel-exhausted case returns the input
unchanged). A `&#` followed by at least two digits and a `;` becomes
`&#38;#` digits `;`; any other `&` is left alone and scanning resumes at
the next character. -/
def ampEncodeAux : Nat → List Char → List Char
  | 0, l => l
  | _ + 1, [] => []
  | _ + 1, [c] => [c]
  | fuel + 1, c :: d :: rest2 =>
      if c == '&' && d == '#' then
        let digits := rest2.takeWhile isAsciiDigit
        if 2 ≤ digits.length then
          match rest2.dropWhile isAsciiDigit with
          | ';' :: rest3 =>
              '&' :: '#' :: '3' :: '8' :: ';' :: '#' ::
                (digits ++ ';' :: ampEncodeAux fuel rest3)
          | _ => '&' :: ampEncodeAux fuel (d :: rest2)
        else '&' :: ampEncodeAux fuel (d :: rest2)
      else c :: ampEncodeAux fuel (d :: rest2)

/-- The ampersand-entity substitution over a whole element. -/
def ampEncode (l : List Char) : List Char := ampEncodeAux (l.length + 1) l

/-- Python `str.replace(tgt, rep)` for a single-character target. -/
def replaceChar (tgt : Char) (rep : List Char) : List Char → List Char
  | [] => []
  | c :: rest =>
      if c = tgt then rep ++ replaceChar tgt rep rest
      else c :: replaceChar tgt rep rest

/-- Embedding of `_render_lscl_selector_element`: with style `none` any
forbidden character (`[`, `]`, `,`) raises
`SelectorElementRenderingError`; with `percent` or `ampersand` the
existing encodings are escaped first and the forbidden characters then
replaced; the result is wrapped in brackets. -/
def renderLsclSelectorElement (element : String) (style : FieldRefStyle) :
    Except RenderErr String :=
  match style with
  | .styleNone =>
      if element.data.contains '[' || element.data.contains ']' ||
          element.data.contains ',' then
        .error (.selectorElementRenderingError element)
      else .ok ('[' :: element.data ++ [']']).asString
  | .stylePercent =>
      let e :=
        replaceChar ',' ['%', '2', 'C']
          (replaceChar ']' ['%', '5', 'D']
            (replaceChar '[' ['%', '5', 'B'] (percentEncode element.data)))
      .ok ('[' :: e ++ [']']).asString
  | .styleAmpersand =>
      let e :=
        replaceChar ',' ['&', '#', '4', '4', ';']
          (replaceChar ']' ['&', '#', '9', '3', ';']
            (replaceChar '[' ['&', '#', '9', '1', ';']
              (ampEncode element.data)))
      .ok ('[' :: e ++ [']']).asString

/-- Whether a `%XX` occurrence (two uppercase hexadecimal digits) starts
at the head of the list. -/
def headIsPercentTriple : List Char → Bool
  | c :: a :: b :: _ =>
      c = '%' && isUpperHexDigit a && isUpperHexDigit b
  | _ => false

/-- Whether the element contains a `%XX` occurrence anywhere (the pattern
rewritten by the percent escape style). -/
def hasPercentTriple : List Char → Bool
  | [] => false
  | c :: rest => headIsPercentTriple (c :: rest) || hasPercentTriple rest

/-- Whether a list starts with a semicolon. -/
def startsWithSemicolon : List Char → Bool
  | ';' :: _ => true
  | _ => false

/-- Whether a `&#NN;` occurrence (at least two digits) starts at the head
of the list. -/
def headIsAmpEntity : List Char → Bool
  | c :: d :: rest =>
      c == '&' && d == '#' &&
        2 ≤ (rest.takeWhile isAsciiDigit).length &&
        startsWithSemicolon (rest.dropWhile isAsciiDigit)
  | _ => false

/-- Whether the element contains a `&#NN;` occurrence anywhere (the
pattern rewritten by the ampersand escape style). -/
def hasAmpEntity : List Char → Bool
  | [] => false
  | c :: rest => headIsAmpEntity (c :: rest) || hasAmpEntity rest

theorem percentEncode_id :
    ∀ l : List Char, hasPercentTriple l = false → percentEncode l = l
  | [], _ => rfl
  | [_], _ => rfl
  | [c, d], h => by
      rw [hasPercentTriple] at h
      obtain ⟨-, h2⟩ := Bool.or_eq_false_iff.mp h
      rw [percentEncode, percentEncode_id [d] h2]
  | c :: a :: b :: rest, h => by
      rw [hasPercentTriple] at h
      obtain ⟨h1, h2⟩ := Bool.or_eq_false_iff.mp h
      rw [headIsPercentTriple] at h1
      rw [percentEncode, if_neg (by simp [h1]),
        percentEncode_id (a :: b :: rest) h2]

theorem ampEncodeAux_id :
    ∀ (fuel : Nat) (l : List Char), hasAmpEntity l = false →
      ampEncodeAux fuel l = l
  | 0, _, _ => rfl
  | _ + 1, [], _ => rfl
  | _ + 1, [_], _ => rfl
  | fuel + 1, c :: d :: rest2, h => by
      rw [hasAmpEntity] at h
      obtain ⟨h1, h2⟩ := Bool.or_eq_false_iff.mp h
      rw [headIsAmpEntity] at h1
      rw [ampEncodeAux]
      by_cases hcd : (c == '&' && d == '#') = true
      · rw [if_pos hcd]
        obtain ⟨hc, hd⟩ := Bool.and_eq_true_iff.mp hcd
        have hc' : c = '&' := by simpa using hc
        by_cases hlen : 2 ≤ (rest2.takeWhile isAsciiDigit).length
        · rw [if_pos hlen]
          split
          · rename_i rest3 hdrop
            rw [hdrop] at h1
            simp [hcd, hlen, startsWithSemicolon] at h1
          · rw [hc']
            exact congrArg (List.cons '&')
              (ampEncodeAux_id fuel (d :: rest2) h2)
        · rw [if_neg hlen, hc']
          exact congrArg (List.cons '&')
            (ampEncodeAux_id fuel (d :: rest2) h2)
      · rw [if_neg hcd]
        exact congrArg (List.cons c) (ampEncodeAux_id fuel (d :: rest2) h2)

theorem replaceChar_id (tgt : Char) (rep : List Char) :
    ∀ l : List Char, (∀ c ∈ l, ¬c = tgt) → replaceChar tgt rep l = l
  | [], _ => rfl
  | c :: rest, h => by
      rw [replaceChar, if_neg (h c (by simp)),
        replaceChar_id tgt rep rest (fun c hc => h c (by simp [hc]))]

theorem selectorElemChar_spec (c : Char)
    (h : isSelectorElemChar c = true) :
    ¬c = '[' ∧ ¬c = ']' ∧ ¬c = ',' := by
  rw [isSelectorElemChar] at h
  simp only [Bool.not_eq_true'] at h
  simp only [Bool.or_eq_false_iff] at h
  refine ⟨?_, ?_, ?_⟩
  · simpa using h.1.1
  · simpa using h.1.2
  · simpa using h.2

theorem takeWhile_append_single (p : Char → Bool) (x : Char) :
    ∀ (t : List Char) (r : List Char), (∀ c ∈ t, p c = true) →
      p x = false →
      (t ++ x :: r).takeWhile p = t ∧ (t ++ x :: r).dropWhile p = x :: r
  | [], r, _, hx => by
      simp [List.takeWhile_cons, List.dropWhile_cons, hx]
  | c :: t', r, hall, hx => by
      have hc := hall c (by simp)
      have ih := takeWhile_append_single p x t' r
        (fun c hm => hall c (by simp [hm])) hx
      simp [List.takeWhile_cons, List.dropWhile_cons, hc, ih.1, ih.2]

theorem matchSelector_wrapped (t : List Char) (hne : t ≠ [])
    (hall : ∀ c ∈ t, isSelectorElemChar c = true) :
    matchSelector ('[' :: t ++ [']']) = some (t, []) := by
  obtain ⟨htw, hdw⟩ :=
    takeWhile_append_single isSelectorElemChar ']' t [] hall (by decide)
  have hemp : t.isEmpty = false := by
    cases t with
    | nil => exact absurd rfl hne
    | cons a b => rfl
  simp only [matchSelector]
  simp [htw, hdw, hemp]

theorem lexOne_wrapped (t : List Char) (hne : t ≠ [])
    (hall : ∀ c ∈ t, isSelectorElemChar c = true) :
    lexOne ('[' :: t ++ [']']) =
      some (some (.str .selectorElement t.asString), []) := by
  have e1 : lexOne ('[' :: t ++ [']']) =
      (match matchSelector ('[' :: t ++ [']']) with
       | some (inner, rest) =>
           some (some (.str .selectorElement inner.asString), rest)
       | none =>
           match matchSymbol ('[' :: t ++ [']']) with
           | some (ty, rest) => some (some (.simple ty), rest)
           | none => lexQuotesOrTail ('[' :: t ++ [']'])) := rfl
  rw [e1, matchSelector_wrapped t hne hall]

theorem lexTokens_selector_wrapped (t : List Char) (hne : t ≠ [])
    (hall : ∀ c ∈ t, isSelectorElemChar c = true) :
    lexTokens ('[' :: t ++ [']']).asString =
      ([.str .selectorElement t.asString, .simple .tEnd], none) := by
  have hdata : (('[' :: t ++ [']']).asString).data = '[' :: t ++ [']'] :=
    rfl
  have hL : (('[' :: t ++ [']']).asString).length = t.length + 1 + 1 := by
    show ('[' :: t ++ [']']).length = t.length + 1 + 1
    simp
  have hdw : ('[' :: t ++ [']']).dropWhile isPyWhitespace
      = '[' :: t ++ [']'] := by
    simp [List.dropWhile_cons, isPyWhitespace]
  rw [lexTokens, hdata, hL, lexTokensAux, hdw]
  rw [show (('[' :: t ++ [']'] : List Char)).isEmpty = false from rfl]
  simp only [Bool.false_eq_true, if_false, lexOne_wrapped t hne hall]
  rw [lexTokensAux]
  simp

/-- Composition the claim describes: render a one-segment selector under
an escape style, then parse the output back (in rvalue position, where
selectors are parsed) and extract the selector's segments. -/
def selectorRoundTrip (s : String) (style : FieldRefStyle) :
    Option (List String) :=
  match renderLsclSelectorElement s style with
  | .error _ => none
  | .ok rendered =>
      let (toks, lerr) := lexTokens rendered
      match parseRValue (toks.length + 8) false ⟨toks, lerr⟩ with
      | .ok (.selector names, _, _) => some names
      | _ => none

theorem contains_false_of_all (l : List Char) (a : Char)
    (h : ∀ c ∈ l, ¬c = a) : l.contains a = false := by
  rw [contains_eq_any]
  simp only [List.any_eq_false]
  intro x hx
  simp [charBeqFalse (h x hx)]

theorem renderSelectorElement_none (s : String)
    (hall : ∀ c ∈ s.data, isSelectorElemChar c = true) :
    renderLsclSelectorElement s .styleNone =
      .ok ('[' :: s.data ++ [']']).asString := by
  have h1 : s.data.contains '[' = false :=
    contains_false_of_all _ _
      (fun c hc => (selectorElemChar_spec c (hall c hc)).1)
  have h2 : s.data.contains ']' = false :=
    contains_false_of_all _ _
      (fun c hc => (selectorElemChar_spec c (hall c hc)).2.1)
  have h3 : s.data.contains ',' = false :=
    contains_false_of_all _ _
      (fun c hc => (selectorElemChar_spec c (hall c hc)).2.2)
  simp only [renderLsclSelectorElement]
  rw [h1, h2, h3]
  simp

theorem renderSelectorElement_percent_id (s : String)
    (hall : ∀ c ∈ s.data, isSelectorElemChar c = true)
    (hp : hasPercentTriple s.data = false) :
    renderLsclSelectorElement s .stylePercent =
      .ok ('[' :: s.data ++ [']']).asString := by
  simp only [renderLsclSelectorElement]
  rw [percentEncode_id s.data hp,
    replaceChar_id '[' ['%', '5', 'B'] s.data
      (fun c hc => (selectorElemChar_spec c (hall c hc)).1),
    replaceChar_id ']' ['%', '5', 'D'] s.data
      (fun c hc => (selectorElemChar_spec c (hall c hc)).2.1),
    replaceChar_id ',' ['%', '2', 'C'] s.data
      (fun c hc => (selectorElemChar_spec c (hall c hc)).2.2)]

theorem renderSelectorElement_ampersand_id (s : String)
    (hall : ∀ c ∈ s.data, isSelectorElemChar c = true)
    (ha : hasAmpEntity s.data = false) :
    renderLsclSelectorElement s .styleAmpersand =
      .ok ('[' :: s.data ++ [']']).asString := by
  simp only [renderLsclSelectorElement, ampEncode]
  rw [ampEncodeAux_id (s.data.length + 1) s.data ha,
    replaceChar_id '[' ['&', '#', '9', '1', ';'] s.data
      (fun c hc => (selectorElemChar_spec c (hall c hc)).1),
    replaceChar_id ']' ['&', '#', '9', '3', ';'] s.data
      (fun c hc => (selectorElemChar_spec c (hall c hc)).2.1),
    replaceChar_id ',' ['&', '#', '4', '4', ';'] s.data
      (fun c hc => (selectorElemChar_spec c (hall c hc)).2.2)]

/-- Claim C5, amended: for every non-empty selector segment `s` with no
`[`, `]` or `,`, parsing the rendering of `Selector([s])` yields a
one-segment selector equal to `s` with escape style `none`
unconditionally; with style `percent` provided `s` contains no `%XX`
triple (two uppercase hexadecimal digits); and with style `ampersand`
provided `s` contains no `&#NN;` entity (at least two digits). The parser
never unescapes selector elements, so the provisos are necessary. -/
theorem C5_selector_roundtrip_amended (s : String) (hne : s.data ≠ [])
    (hall : ∀ c ∈ s.data, isSelectorElemChar c = true) :
    selectorRoundTrip s .styleNone = some [s] ∧
    (hasPercentTriple s.data = false →
      selectorRoundTrip s .stylePercent = some [s]) ∧
    (hasAmpEntity s.data = false →
      selectorRoundTrip s .styleAmpersand = some [s]) := by
  have main : ∀ st : FieldRefStyle,
      renderLsclSelectorElement s st =
        .ok ('[' :: s.data ++ [']']).asString →
      selectorRoundTrip s st = some [s] := by
    intro st hrender
    simp only [selectorRoundTrip, hrender]
    rw [lexTokens_selector_wrapped s.data hne hall]
    rfl
  exact ⟨main _ (renderSelectorElement_none s hall),
    fun hp => main _ (renderSelectorElement_percent_id s hall hp),
    fun ha => main _ (renderSelectorElement_ampersand_id s hall ha)⟩

/-- Claim C5, counterexample: with escape style `percent`, the segment
`%41` renders as `[%2541]` (the existing `%41` triple is escaped), and
parsing that back yields the segment `%2541`, not `%41`: the parser does
not undo the percent encoding. -/
theorem C5_percent_roundtrip_counterexample :
    selectorRoundTrip "%41" .stylePercent = some ["%2541"] ∧
      ("%2541" : String) ≠ "%41" :=
  ⟨rfl, by decide⟩

/-- Concrete instance of `C5_selector_roundtrip_amended` at `s = "a.b c"`
(a segment with a dot and a space), all three escape styles. -/
theorem C5_selector_roundtrip_witness :
    selectorRoundTrip "a.b c" .styleNone = some ["a.b c"] ∧
    selectorRoundTrip "a.b c" .stylePercent = some ["a.b c"] ∧
    selectorRoundTrip "a.b c" .styleAmpersand = some ["a.b c"] := by
  obtain ⟨h1, h2, h3⟩ :=
    C5_selector_roundtrip_amended "a.b c" (by decide) (by decide)
  exact ⟨h1, h2 (by decide), h3 (by decide)⟩

/-! ## Claim C8: shape of NUMBER lexemes -/

/-- Unsigned part of the number-lexeme shape as implemented by the master
pattern (`[0-9]+(?:\.[0-9]*)?` as a full match): one or more digits,
optionally followed by `.` and zero or more digits. -/
def numShapeSourceBody (l : List Char) : Bool :=
  !(l.takeWhile isAsciiDigit).isEmpty &&
    (match l.dropWhile isAsciiDigit with
     | [] => true
     | '.' :: f => f.all isAsciiDigit
     | _ => false)

/-- Number-lexeme shape as implemented by the master pattern
(`-?[0-9]+(?:\.[0-9]*)?` as a full match). -/
def numShapeSource (l : List Char) : Bool :=
  match l with
  | c :: r =>
      if c = '-' then numShapeSourceBody r else numShapeSourceBody (c :: r)
  | [] => false

/-- Number-lexeme shape in the words of the claim: optional `-`, one or
more digits, optionally followed by `.` and one or more digits. This
definition follows the claim text and is compared against the lexer's
lexemes. -/
def numShapeClaimed (l : List Char) : Bool :=
  match l with
  | c :: r =>
      if c = '-' then numShapeClaimedBody r
      else numShapeClaimedBody (c :: r)
  | [] => false
where
  numShapeClaimedBody (l : List Char) : Bool :=
    !(l.takeWhile isAsciiDigit).isEmpty &&
      (match l.dropWhile isAsciiDigit with
       | [] => true
       | '.' :: f => !f.isEmpty && f.all isAsciiDigit
       | _ => false)

theorem takeWhile_all (p : Char → Bool) :
    ∀ l : List Char, (∀ c ∈ l, p c = true) →
      l.takeWhile p = l ∧ l.dropWhile p = []
  | [], _ => ⟨rfl, rfl⟩
  | c :: rest, h => by
      have hc := h c (by simp)
      have ih := takeWhile_all p rest (fun c hm => h c (by simp [hm]))
      simp [List.takeWhile_cons, List.dropWhile_cons, hc, ih.1, ih.2]

theorem matchNumberBody_shape (l raw rest : List Char)
    (h : matchNumberBody l = some (raw, rest)) :
    numShapeSourceBody raw = true := by
  rw [matchNumberBody] at h
  by_cases hemp : (l.takeWhile isAsciiDigit).isEmpty
  · rw [if_pos hemp] at h
    exact absurd h (by simp)
  · rw [if_neg hemp] at h
    have hall : ∀ c ∈ l.takeWhile isAsciiDigit, isAsciiDigit c = true :=
      fun c hc => List.mem_takeWhile_imp hc
    split at h
    · rename_i r hdrop
      obtain ⟨hraw, -⟩ := Prod.mk.injEq .. ▸ Option.some.injEq .. ▸ h
      subst hraw
      obtain ⟨htw, hdw⟩ := takeWhile_append_single isAsciiDigit '.'
        (l.takeWhile isAsciiDigit) (r.takeWhile isAsciiDigit) hall
        (by decide)
      rw [numShapeSourceBody, htw, hdw]
      simp only [hemp, Bool.not_false, Bool.true_and]
      simp only [List.all_eq_true]
      exact fun c hc => List.mem_takeWhile_imp hc
    · rename_i hne
      obtain ⟨hraw, -⟩ := Prod.mk.injEq .. ▸ Option.some.injEq .. ▸ h
      subst hraw
      obtain ⟨htw, hdw⟩ := takeWhile_all isAsciiDigit _ hall
      rw [numShapeSourceBody, htw, hdw]
      simp [hemp]

theorem numShapeSource_of_body (l : List Char)
    (hb : numShapeSourceBody l = true) : numShapeSource l = true := by
  match l with
  | [] => exact absurd hb (by decide)
  | c :: rest =>
      by_cases hc : c = '-'
      · exfalso
        subst hc
        rw [numShapeSourceBody] at hb
        simp [List.takeWhile_cons,
          show isAsciiDigit '-' = false from rfl] at hb
      · rw [numShapeSource, if_neg hc]
        exact hb

theorem matchNumber_shape (l raw rest : List Char)
    (h : matchNumber l = some (raw, rest)) :
    numShapeSource raw = true := by
  match l, h with
  | [], h => simp [matchNumber] at h
  | c :: r, h =>
      rw [matchNumber] at h
      by_cases hc : c = '-'
      · rw [if_pos hc] at h
        cases hb : matchNumberBody r with
        | none => rw [hb] at h; exact absurd h (by simp)
        | some p =>
            rw [hb] at h
            simp only [Option.map_some', Option.some.injEq,
              Prod.mk.injEq] at h
            obtain ⟨hraw, -⟩ := h
            subst hraw
            rw [numShapeSource, if_pos rfl]
            exact matchNumberBody_shape r p.1 p.2 (by rw [hb])
      · rw [if_neg hc] at h
        exact numShapeSource_of_body raw
          (matchNumberBody_shape (c :: r) raw rest h)

theorem numberValue_isDec (raw : List Char) :
    (numberValue raw).isDec = raw.contains '.' := by
  by_cases h : '.' ∈ raw <;> simp [numberValue, h, NumValue.isDec]

/-- Property of a token checked by claim C8 (amended): a `NUMBER` token's
raw lexeme has the source shape, and its value is a decimal exactly when
the lexeme contains a dot. -/
def numTokenOk : LsclToken → Bool
  | .num v raw =>
      numShapeSource raw.data && (v.isDec == raw.data.contains '.')
  | _ => true

theorem lexOneTail_numOk (l : List Char) (t : LsclToken)
    (rest : List Char) (h : lexOneTail l = some (some t, rest)) :
    numTokenOk t = true := by
  rw [lexOneTail] at h
  split at h
  · rename_i raw0 rest0 hn
    simp only [Option.some.injEq, Prod.mk.injEq] at h
    obtain ⟨ht, -⟩ := h
    subst ht
    rw [numTokenOk]
    rw [show ((raw0.asString : String)).data = raw0 from rfl]
    rw [matchNumber_shape l raw0 rest0 hn, numberValue_isDec]
    simp
  · split at h
    · split at h
      · simp only [Option.some.injEq, Prod.mk.injEq] at h
        obtain ⟨ht, -⟩ := h
        subst ht
        rfl
      · simp only [Option.some.injEq, Prod.mk.injEq] at h
        obtain ⟨ht, -⟩ := h
        subst ht
        rfl
    · split at h
      · simp only [Option.some.injEq, Prod.mk.injEq] at h
        obtain ⟨ht, -⟩ := h
        subst ht
        rfl
      · exact absurd h (by simp)

theorem lexQuotesOrTail_numOk (l : List Char) (t : LsclToken)
    (rest : List Char) (h : lexQuotesOrTail l = some (some t, rest)) :
    numTokenOk t = true := by
  unfold lexQuotesOrTail at h
  split at h
  · split at h
    · simp only [Option.some.injEq, Prod.mk.injEq] at h
      obtain ⟨ht, -⟩ := h
      subst ht
      rfl
    · exact lexOneTail_numOk _ _ _ h
  · split at h
    · simp only [Option.some.injEq, Prod.mk.injEq] at h
      obtain ⟨ht, -⟩ := h
      subst ht
      rfl
    · exact lexOneTail_numOk _ _ _ h
  · split at h
    · simp only [Option.some.injEq, Prod.mk.injEq] at h
      obtain ⟨ht, -⟩ := h
      subst ht
      rfl
    · exact lexOneTail_numOk _ _ _ h
  · exact lexOneTail_numOk _ _ _ h

theorem lexOne_numOk (l : List Char) (t : LsclToken) (rest : List Char)
    (h : lexOne l = some (some t, rest)) : numTokenOk t = true := by
  rw [lexOne] at h
  split at h
  · simp only [Option.some.injEq, Prod.mk.injEq] at h
    obtain ⟨ht, -⟩ := h
    exact absurd ht (by simp)
  · split at h
    · simp only [Option.some.injEq, Prod.mk.injEq] at h
      obtain ⟨ht, -⟩ := h
      subst ht
      rfl
    · split at h
      · simp only [Option.some.injEq, Prod.mk.injEq] at h
        obtain ⟨ht, -⟩ := h
        subst ht
        rfl
      · exact lexQuotesOrTail_numOk _ _ _ h

theorem lexTokensAux_numOk :
    ∀ (fuel : Nat) (l : List Char) (t : LsclToken),
      t ∈ (lexTokensAux fuel l).1 → numTokenOk t = true
  | 0, l, t, h => by simp [lexTokensAux] at h
  | fuel + 1, l, t, h => by
      rw [lexTokensAux] at h
      by_cases he : (l.dropWhile isPyWhitespace).isEmpty
      · rw [if_pos he] at h
        simp at h
        subst h
        rfl
      · rw [if_neg he] at h
        cases ho : lexOne (l.dropWhile isPyWhitespace) with
        | none => rw [ho] at h; simp at h
        | some p =>
            obtain ⟨topt, rest⟩ := p
            rw [ho] at h
            cases topt with
            | none => exact lexTokensAux_numOk fuel rest t h
            | some t0 =>
                simp only [] at h
                rcases List.mem_cons.mp h with h1 | h2
                · subst h1
                  exact lexOne_numOk _ _ _ ho
                · exact lexTokensAux_numOk fuel rest t h2

/-- Claim C8, amended: every `NUMBER` token produced by the lexer has a
raw lexeme of the form optional `-`, one or more digits, optionally
followed by `.` and zero or more digits (the fractional digits may be
empty, unlike the claim's "one or more"); and its value is a decimal
exactly when the lexeme contains a `.`. -/
theorem C8_number_token_shape_amended (s : String) (t : LsclToken)
    (ht : t ∈ (lexTokens s).1) (v : NumValue) (raw : String)
    (heq : t = .num v raw) :
    numShapeSource raw.data = true ∧ v.isDec = raw.data.contains '.' := by
  subst heq
  have h := lexTokensAux_numOk (s.length + 1) s.data _ ht
  rw [numTokenOk] at h
  obtain ⟨h1, h2⟩ := Bool.and_eq_true_iff.mp h
  exact ⟨h1, by simpa using h2⟩

/-- Claim C8, counterexample: lexing `1.` produces a `NUMBER` token whose
raw lexeme is `1.` — a dot with no following digit — so the claimed shape
(one or more digits after the dot) is violated, while the source shape
holds; the value is a decimal, as the lexeme contains a dot. -/
theorem C8_trailing_dot_counterexample :
    lexTokens "1." = ([.num (.decVal "1.") "1.", .simple .tEnd], none) ∧
    numShapeClaimed ("1." : String).data = false ∧
    numShapeSource ("1." : String).data = true :=
  ⟨rfl, rfl, rfl⟩

/-- Concrete instance of `C8_number_token_shape_amended` at the input
`-12.5`. -/
theorem C8_number_token_shape_witness :
    numShapeSource ("-12.5" : String).data = true ∧
      (NumValue.decVal "-12.5").isDec =
        ("-12.5" : String).data.contains '.' :=
  C8_number_token_shape_amended "-12.5" (.num (.decVal "-12.5") "-12.5")
    (by decide) (.decVal "-12.5") "-12.5" rfl

/-! ## Filters adapter (`lscl/filters.py`) -/

/-- One element of a `LogstashFilters` list: a `LogstashFilter` (`name`
and `config`, the latter a Python `dict` embedded as an insertion-ordered
association list) or a `LogstashFilterBranching` (`conditions` and
optional `default`). -/
inductive LogstashFilterElem where
  | filter (name : String) (config : List (String × LsclData))
  | branching (conditions : List (LsclCond × List LogstashFilterElem))
      (dflt : Option (List LogstashFilterElem))
  deriving Repr

/-- The `config` dict built by `_get_filters` from a block's attributes:
`config[subelement.name] = subelement.content` in element order. -/
def configOfContent (content : LsclContent) : List (String × LsclData) :=
  content.foldl
    (fun acc e =>
      match e with
      | .attr n v => dictInsert n v acc
      | _ => acc)
    []

mutual

/-- Embedding of `_get_filters`: conditions become branching (a falsy —
missing or empty — `default` becomes `None`), blocks become filters with
their attribute configuration, attributes at this level are skipped. -/
def getFilters : LsclContent → List LogstashFilterElem
  | [] => []
  | .conds branches dflt :: rest =>
      .branching (getFiltersBranches branches) (getFiltersDflt dflt)
        :: getFilters rest
  | .block name content :: rest =>
      .filter name (configOfContent content) :: getFilters rest
  | .attr _ _ :: rest => getFilters rest

/-- `[(cond, _get_filters(body)) for cond, body in element.conditions]`. -/
def getFiltersBranches :
    List (LsclCond × LsclContent) → List (LsclCond × List LogstashFilterElem)
  | [] => []
  | (c, body) :: rest => (c, getFilters body) :: getFiltersBranches rest

/-- `_get_filters(element.default) if element.default else None`: Python
truthiness makes both a missing and an empty default `None`. -/
def getFiltersDflt :
    Option LsclContent → Option (List LogstashFilterElem)
  | none => none
  | some d => if d.isEmpty then none else some (getFilters d)

end

mutual

/-- Embedding of `_find_filter_content`: contents of blocks named
`filter` are inlined, conditions are searched recursively, everything
else is dropped. -/
def findFilterContent : LsclContent → LsclContent
  | [] => []
  | .block name content :: rest =>
      (if name = "filter" then content else []) ++ findFilterContent rest
  | .conds branches dflt :: rest =>
      .conds (findBranches branches) (findDflt dflt)
        :: findFilterContent rest
  | .attr _ _ :: rest => findFilterContent rest

/-- `[(cond, _find_filter_content(body)) for cond, body in ...]`. -/
def findBranches :
    List (LsclCond × LsclContent) → List (LsclCond × LsclContent)
  | [] => []
  | (c, body) :: rest => (c, findFilterContent body) :: findBranches rest

/-- `_find_filter_content(element.default) if element.default is not None
else None`: unlike `getFiltersDflt`, an empty default is kept. -/
def findDflt : Option LsclContent → Option LsclContent
  | none => none
  | some d => some (findFilterContent d)

end

/-- The three runtime types accepted by `_get_filter_content` for `raw`:
a string, LSCL content, or a single block. -/
inductive FiltersInput where
  | rawIn (s : String)
  | contentIn (c : LsclContent)
  | blockIn (name : String) (content : LsclContent)

/-- Root-finding logic of `_get_filter_content` once `src` content is in
hand: `at_root is True` keeps the root, otherwise `filter` blocks are
searched, falling back to the root when nothing was found and `at_root`
was `None`. -/
def filterRootLogic (src : LsclContent) (atRoot : Option Bool) :
    LsclContent :=
  if atRoot = some true then src
  else
    if (findFilterContent src).isEmpty ∧ atRoot = none then src
    else findFilterContent src

/-- Embedding of `_get_filter_content`. A block input stands for the
`filter` block itself (or nothing, when named otherwise); a string input
is parsed first. -/
def getFilterContent (raw : FiltersInput) (atRoot : Option Bool) :
    Except PErr LsclContent :=
  match raw with
  | .blockIn name content =>
      if name ≠ "filter" then .ok [] else .ok content
  | .rawIn s => do
      let (src, _) ← parseLscl s
      .ok (filterRootLogic src atRoot)
  | .contentIn c => .ok (filterRootLogic c atRoot)

/-- Embedding of `parse_logstash_filters`:
`_get_filters(_get_filter_content(raw, at_root=at_root))`. -/
def parseLogstashFilters (raw : FiltersInput) (atRoot : Option Bool) :
    Except PErr (List LogstashFilterElem) :=
  (getFilterContent raw atRoot).map getFilters

/-- Key order used by `sorted(element.config.items())`: Python compares
the `(key, value)` tuples key first, and dict keys are distinct, so only
the key comparison is exercised. -/
def keyLe (a b : String × LsclData) : Prop := a.1 ≤ b.1

instance : DecidableRel keyLe :=
  fun a b => inferInstanceAs (Decidable (a.1 ≤ b.1))

instance : IsTotal (String × LsclData) keyLe :=
  ⟨fun a b => le_total a.1 b.1⟩

instance : IsTrans (String × LsclData) keyLe :=
  ⟨fun _ _ _ h h' => le_trans h h'⟩

/-- `sorted(element.config.items())`. -/
def sortByKey (l : List (String × LsclData)) : List (String × LsclData) :=
  l.insertionSort keyLe

mutual

/-- Embedding of `_render_as_lscl_content`: a filter becomes a block
whose content is one attribute per config entry in sorted key order; a
branching becomes conditions with recursively rendered bodies. -/
def renderAsLsclContent : List LogstashFilterElem → LsclContent
  | [] => []
  | .filter name config :: rest =>
      .block name
          ((sortByKey config).map (fun kv => .attr kv.1 kv.2))
        :: renderAsLsclContent rest
  | .branching conds dflt :: rest =>
      .conds (renderBranches conds) (renderDflt dflt)
        :: renderAsLsclContent rest

/-- `[(cond, _render_as_lscl_content(body)) for cond, body in ...]`. -/
def renderBranches :
    List (LsclCond × List LogstashFilterElem) →
      List (LsclCond × LsclContent)
  | [] => []
  | (c, body) :: rest => (c, renderAsLsclContent body) :: renderBranches rest

/-- `_render_as_lscl_content(element.default) if element.default is not
None else None`. -/
def renderDflt :
    Option (List LogstashFilterElem) → Option LsclContent
  | none => none
  | some d => some (renderAsLsclContent d)

end

theorem sorted_nodupKeys_perm_eq :
    ∀ (l1 l2 : List (String × LsclData)),
      l1.Perm l2 → l1.Pairwise keyLe → l2.Pairwise keyLe →
      (l1.map Prod.fst).Nodup → l1 = l2
  | [], l2, hp, _, _, _ => hp.nil_eq
  | a :: t1, l2, hp, hs1, hs2, hnd => by
      match l2, hp, hs2 with
      | [], hp, _ => exact absurd hp.symm.nil_eq (by simp)
      | b :: t2, hp, hs2 =>
          have hab : a = b := by
            by_contra hne
            have hat2 : a ∈ t2 := by
              have := hp.mem_iff.mp (List.mem_cons_self a t1)
              rcases List.mem_cons.mp this with h | h
              · exact absurd h hne
              · exact h
            have hbt1 : b ∈ t1 := by
              have := hp.mem_iff.mpr (List.mem_cons_self b t2)
              rcases List.mem_cons.mp this with h | h
              · exact absurd h.symm hne
              · exact h
            have h1 : keyLe a b := (List.pairwise_cons.mp hs1).1 b hbt1
            have h2 : keyLe b a := (List.pairwise_cons.mp hs2).1 a hat2
            have hkey : a.1 = b.1 := le_antisymm h1 h2
            have hnotin : a.1 ∉ t1.map Prod.fst := (List.nodup_cons.mp hnd).1
            exact hnotin (by
              rw [hkey]
              exact List.mem_map_of_mem Prod.fst hbt1)
          subst hab
          rw [sorted_nodupKeys_perm_eq t1 t2 hp.cons_inv
            (List.pairwise_cons.mp hs1).2 (List.pairwise_cons.mp hs2).2
            (List.nodup_cons.mp hnd).2]

/-- Claim C9: a `LogstashFilter` is rendered as a block carrying its
name, whose content is one attribute per config entry in ascending key
order: the rendered list is sorted by key, is a permutation of the
config (one attribute per entry), and does not depend on the config's
insertion order (any permutation with the same — necessarily distinct —
keys sorts to the same list). -/
theorem C9_filter_rendering_sorted (name : String)
    (config config' : List (String × LsclData))
    (rest : List LogstashFilterElem)
    (hperm : config.Perm config')
    (hnd : (config.map Prod.fst).Nodup) :
    renderAsLsclContent (.filter name config :: rest) =
        .block name
            ((sortByKey config).map (fun kv => .attr kv.1 kv.2))
          :: renderAsLsclContent rest ∧
      (sortByKey config).Pairwise keyLe ∧
      (sortByKey config).Perm config ∧
      sortByKey config' = sortByKey config := by
  refine ⟨?_, ?_, ?_, ?_⟩
  · simp only [renderAsLsclContent]
  · exact List.sorted_insertionSort keyLe config
  · exact List.perm_insertionSort keyLe config
  · have p1 : (sortByKey config').Perm config' :=
      List.perm_insertionSort keyLe config'
    have p2 : (sortByKey config).Perm config :=
      List.perm_insertionSort keyLe config
    have hp : (sortByKey config').Perm (sortByKey config) :=
      (p1.trans hperm.symm).trans p2.symm
    have hnd1 : ((sortByKey config').map Prod.fst).Nodup := by
      have hmp : (config.map Prod.fst).Perm
          ((sortByKey config').map Prod.fst) :=
        (hperm.trans p1.symm).map Prod.fst
      exact hmp.nodup_iff.mp hnd
    exact sorted_nodupKeys_perm_eq _ _ hp
      (List.sorted_insertionSort keyLe config')
      (List.sorted_insertionSort keyLe config) hnd1

/-- Concrete instance of `C9_filter_rendering_sorted`: a two-entry config
given in the order `b`, `a`, against its swapped insertion order. -/
theorem C9_filter_rendering_sorted_witness :
    renderAsLsclContent
        (.filter "x" [("b", .int 2), ("a", .int 1)] :: []) =
        .block "x"
            ((sortByKey [("b", .int 2), ("a", .int 1)]).map
              (fun kv => .attr kv.1 kv.2))
          :: renderAsLsclContent [] ∧
      (sortByKey [("b", .int 2), ("a", .int 1)]).Pairwise keyLe ∧
      (sortByKey [("b", .int 2), ("a", .int 1)]).Perm
        [("b", .int 2), ("a", .int 1)] ∧
      sortByKey [("a", .int 1), ("b", .int 2)] =
        sortByKey [("b", .int 2), ("a", .int 1)] :=
  C9_filter_rendering_sorted "x" [("b", .int 2), ("a", .int 1)]
    [("a", .int 1), ("b", .int 2)] []
    (List.Perm.swap ("a", LsclData.int 1) ("b", LsclData.int 2) [])
    (by decide)

/-- Claim C10: a block input whose name is not `filter` yields no
filters, for every `at_root` value. -/
theorem C10_non_filter_block_empty (name : String) (content : LsclContent)
    (atRoot : Option Bool) (h : name ≠ "filter") :
    parseLogstashFilters (.blockIn name content) atRoot = .ok [] := by
  rw [parseLogstashFilters, getFilterContent, if_pos h]
  show Except.ok (getFilters []) = Except.ok []
  rw [show getFilters [] = ([] : List LogstashFilterElem) from by
    rw [getFilters]]

/-- Concrete instance of `C10_non_filter_block_empty`: a `mutate` block
with empty content, `at_root = None`. -/
theorem C10_non_filter_block_empty_witness :
    parseLogstashFilters (.blockIn "mutate" []) none = .ok [] :=
  C10_non_filter_block_empty "mutate" [] none (by decide)

end Lscl
